import Mathlib

/-!
# Verification of the datahub-client-sdk-go authentication / streaming core

Shallow embedding of the credential/token lifecycle and the streaming
iterator of the mimiro-io datahub client SDK, translated from the Go
sources (`transactions.go`, `dataset.go`, `query.go`, the JWT/PEM helper
file and `error.go`).

Modelling conventions:
* Go `nil`-able pointers become `Option`; Go `(T, error)` returns become
  `Except GoErr T`.
* Time is an `Int` counting seconds; the zero `time.Time` is `none`.
* Network traffic is abstracted by a `NetEnv` of response oracles; every
  operation additionally returns the number of network calls it performed,
  and state-mutating methods return the updated `Client`.
* Randomness (uuid.New) and the current time are passed explicitly.
* Bytes are `Nat`s; byte slices are `List Nat`.  Where Go byte arithmetic
  could overflow, an explicit `% 256` appears.
-/

namespace DatahubSDK

/-- A decoded JSON value, as produced by `encoding/json` into
`map[string]interface{}` (only flat fields are needed here). -/
inductive JsonValue where
  | str (s : String)
  | num (n : Int)
  | boolean (b : Bool)
  | null
  deriving DecidableEq, Repr

/-- The SDK error taxonomy from `error.go` plus the plain `errors.New`
errors and transport-level failures.  `Option GoErr` is the possibly-nil
wrapped inner error (`Err` field). -/
inductive GoErr where
  | plain (msg : String)
  | parameterError (msg : String) (err : Option GoErr)
  | authenticationError (msg : String) (err : Option GoErr)
  | requestError (msg : String) (err : Option GoErr)
  | clientProcessingError (msg : String) (err : Option GoErr)
  | transportError (msg : String)
  | panicTypeAssertion

def GoErr.isParameterError : GoErr → Bool
  | .parameterError _ _ => true
  | _ => false

def GoErr.isAuthenticationError : GoErr → Bool
  | .authenticationError _ _ => true
  | _ => false

def GoErr.isRequestError : GoErr → Bool
  | .requestError _ _ => true
  | _ => false

/-- `golang.org/x/oauth2` (v0.17.0) `Token`, restricted to the fields the
SDK reads.  `expiry = none` models the zero `time.Time`
(`Expiry.IsZero()`); `some e` is an absolute time in seconds. -/
structure OAuth2Token where
  accessToken : String
  expiry : Option Int
  deriving DecidableEq, Repr

/-- oauth2's `defaultExpiryDelta` (10 seconds): a token counts as expired
that much early, to allow for clock skew / in-flight use. -/
def defaultExpiryDelta : Int := 10

/-- oauth2 `Token.expired`: the zero expiry never expires; otherwise the
token is expired iff `Expiry - expiryDelta` is before `now`. -/
def OAuth2Token.expired (t : OAuth2Token) (now : Int) : Bool :=
  match t.expiry with
  | none => false
  | some e => decide (e - defaultExpiryDelta < now)

/-- oauth2 `Token.Valid`: the receiver is non-nil, `AccessToken` is
non-empty and the token is not expired. -/
def tokenValid (t : Option OAuth2Token) (now : Int) : Bool :=
  match t with
  | none => false
  | some tok => tok.accessToken ≠ "" && !(tok.expired now)

/-- `AuthType` constants from `transactions.go`. -/
inductive AuthType where
  | AuthTypeNone
  | AuthTypeBasic
  | AuthTypeClientKeyAndSecret
  | AuthTypePublicKey
  | AuthTypeUser
  deriving DecidableEq, Repr

/-- `crypto/rsa` private key: public modulus `n` and exponent `e`, private
exponent `d` and the two primes `p`, `q`.  (Go's `Precomputed` CRT values
are derived data, recomputed by `Precompute`; they are produced on marshal
and discarded on parse, so they are not key state.) -/
structure RsaPrivateKey where
  n : Nat
  e : Nat
  d : Nat
  p : Nat
  q : Nat
  deriving DecidableEq, Repr

structure RsaPublicKey where
  n : Nat
  e : Nat
  deriving DecidableEq, Repr

/-- `authConfig` from `transactions.go` (field `AuthType` renamed to
`authType`: a Lean field may not share the name of its type). -/
structure AuthConfig where
  authType : AuthType
  Authorizer : String
  ClientID : String
  ClientSecret : String
  Audience : String
  PrivateKey : Option RsaPrivateKey
  deriving DecidableEq, Repr

/-- The SDK `Client` (fields lower-cased for the same reason). -/
structure Client where
  authConfig : AuthConfig
  authToken : Option OAuth2Token
  server : String
  deriving DecidableEq, Repr

/-- `egdm.Entity`, restricted to its identifier. -/
structure Entity where
  id : String
  deriving DecidableEq, Repr

/-- `egdm.EntityCollection`: one page of entities plus the opaque
continuation token returned by the server. -/
structure EntityCollection where
  entities : List Entity
  continuation : String
  deriving DecidableEq, Repr

/-- `jwt.RegisteredClaims` as populated by `createJWTForTokenRequest`. -/
structure RegisteredClaims where
  ExpiresAt : Option Int
  ID : String
  Subject : String
  Audience : List String
  deriving DecidableEq, Repr

/-- A signed compact JWT, modelled as its signing algorithm and its claim
set (the RSA signature bytes carry no information used by any claim). -/
structure JWTAssertion where
  alg : String
  claims : RegisteredClaims
  deriving DecidableEq, Repr

/-- `createJWTForTokenRequest`: fresh `jti` from `uuid.New()`, `sub` from
the subject argument, `aud` a one-element list, `exp = time.Now() + 1
minute`; signed with RS256.  The uuid drawn and the clock reading are
passed explicitly. -/
def createJWTForTokenRequest (subject : String) (audience : String)
    (now : Int) (uniqueId : String) : JWTAssertion :=
  { alg := "RS256"
    claims :=
      { ExpiresAt := some (now + 60)
        ID := uniqueId
        Subject := subject
        Audience := [audience] } }

/-- Response oracles for every kind of network interaction the core
performs.  Each oracle is keyed on exactly the request data the Go code
sends, so two environments that answer those requests identically are
indistinguishable to the client. -/
structure NetEnv where
  /-- `clientcredentials.Config.Token` for the Basic path:
  clientID, clientSecret, tokenURL ↦ token or failure. -/
  basicToken : String → String → String → Except GoErr OAuth2Token
  /-- `oidc.NewProvider` discovery: authorizer URL ↦ token endpoint. -/
  oidcDiscovery : String → Except GoErr String
  /-- `clientcredentials.Config.Token` for the ClientCredentials grant:
  clientID, clientSecret, tokenURL, audience ↦ token or failure. -/
  ccToken : String → String → String → String → Except GoErr OAuth2Token
  /-- `http.PostForm` + JSON decode for the PublicKeyJWT path: url,
  grant_type, client_assertion_type, client_assertion ↦ decoded JSON
  object. -/
  certPostForm : String → String → String → JWTAssertion →
      Except GoErr (List (String × JsonValue))
  /-- `makeStreamingRequest` plus entity parsing for domain reads: verb,
  path, query params ↦ transport failure, unparseable body (`none`) or a
  parsed collection. -/
  streamRequest : String → String → List (String × String) →
      Except GoErr (Option EntityCollection)

/-- Lookup of a field of a decoded JSON object. -/
def jsonLookup (k : String) (m : List (String × JsonValue)) : Option JsonValue :=
  (m.find? (fun kv => kv.fst == k)).map (fun kv => kv.snd)

/-- `NewClient` (transactions.go): empty server URL is a ParameterError.
(The `url.Parse` failure branch is unreachable for the inputs any claim
touches and is not modelled.) -/
def NewClient (server : String) : Except GoErr Client :=
  if server = "" then .error (.parameterError "server url is required" none)
  else .ok
    { authConfig :=
        { authType := .AuthTypeNone, Authorizer := "", ClientID := ""
          ClientSecret := "", Audience := "", PrivateKey := none }
      authToken := none
      server := server }

/-- `WithExistingToken`. -/
def WithExistingToken (c : Client) (token : Option OAuth2Token) : Client :=
  { c with authToken := token }

/-- `WithAdminAuth`: Basic auth with the client's own server as
authorizer; replaces the whole config. -/
def WithAdminAuth (c : Client) (username password : String) : Client :=
  { c with authConfig :=
      { authType := .AuthTypeBasic, ClientID := username
        ClientSecret := password, Authorizer := c.server
        Audience := "", PrivateKey := none } }

/-- `WithClientKeyAndSecretAuth`. -/
def WithClientKeyAndSecretAuth (c : Client)
    (authorizer audience clientKey clientSecret : String) : Client :=
  { c with authConfig :=
      { authType := .AuthTypeClientKeyAndSecret, ClientID := clientKey
        ClientSecret := clientSecret, Authorizer := authorizer
        Audience := audience, PrivateKey := none } }

/-- `WithPublicKeyAuth` (transactions.go:203-212): takes only a client id
and a private key; the audience is the literal `"datahub-client-sdk"` and
the authorizer is the client's own server URL. -/
def WithPublicKeyAuth (c : Client) (clientID : String)
    (privateKey : Option RsaPrivateKey) : Client :=
  { c with authConfig :=
      { authType := .AuthTypePublicKey, ClientID := clientID
        Audience := "datahub-client-sdk", PrivateKey := privateKey
        Authorizer := c.server, ClientSecret := "" } }

/-- `WithUserAuth`. -/
def WithUserAuth (c : Client) (authorizer audience : String) : Client :=
  { c with authConfig :=
      { authType := .AuthTypeUser, Audience := audience
        Authorizer := authorizer, ClientID := ""
        ClientSecret := "", PrivateKey := none } }

/-- `Client.isTokenValid` (transactions.go:446-452). -/
def isTokenValid (c : Client) (now : Int) : Bool :=
  match c.authToken with
  | none => false
  | some _ => tokenValid c.authToken now

/-- `authenticateWithBasicAuth`: one token-endpoint POST against
`Authorizer + "/security/token"`. -/
def authenticateWithBasicAuth (c : Client) (env : NetEnv) :
    Except GoErr OAuth2Token × Nat :=
  (env.basicToken c.authConfig.ClientID c.authConfig.ClientSecret
    (c.authConfig.Authorizer ++ "/security/token"), 1)

/-- `authenticateWithUserFlow` (transactions.go:285-287): `return nil, nil`. -/
def authenticateWithUserFlow (_c : Client) :
    Except GoErr (Option OAuth2Token) × Nat :=
  (.ok none, 0)

/-- `authenticateWithClientCredentials` (transactions.go:411-444):
validates required fields with plain `errors.New` messages before any
network call, then OIDC discovery, then the client-credentials grant. -/
def authenticateWithClientCredentials (c : Client) (env : NetEnv) :
    Except GoErr OAuth2Token × Nat :=
  if c.authConfig.ClientID = "" then (.error (.plain "missing client id"), 0)
  else if c.authConfig.ClientSecret = "" then
    (.error (.plain "missing client secret"), 0)
  else if c.authConfig.Authorizer = "" then
    (.error (.plain "missing authorizer url"), 0)
  else if c.authConfig.Audience = "" then
    (.error (.plain "missing audience identifer"), 0)
  else
    match env.oidcDiscovery c.authConfig.Authorizer with
    | .error e => (.error e, 1)
    | .ok tokenURL =>
      match env.ccToken c.authConfig.ClientID c.authConfig.ClientSecret
          tokenURL c.authConfig.Audience with
      | .error e => (.error e, 2)
      | .ok tok => (.ok tok, 2)

/-- The JWT assertion built at transactions.go:389: the
`createJWTForTokenRequest` call site passes the configured `ClientID`,
`Audience` and private key. -/
def certAssertion (c : Client) (now : Int) (uniqueId : String) : JWTAssertion :=
  createJWTForTokenRequest c.authConfig.ClientID c.authConfig.Audience now uniqueId

/-- `authenticateWithCertificate` (transactions.go:384-409): builds the
JWT assertion, POSTs the form, decodes the JSON body and extracts only
`access_token` (a failed `.(string)` type assertion is a Go panic); the
returned token has no expiry. -/
def authenticateWithCertificate (c : Client) (env : NetEnv) (now : Int)
    (uniqueId : String) : Except GoErr OAuth2Token × Nat :=
  let assertion := certAssertion c now uniqueId
  let reqUrl := c.authConfig.Authorizer ++ "/security/token"
  match env.certPostForm reqUrl "client_credentials"
      "urn:ietf:params:oauth:grant-type:jwt-bearer" assertion with
  | .error e => (.error e, 1)
  | .ok response =>
    match jsonLookup "access_token" response with
    | some (.str accessToken) =>
        (.ok { accessToken := accessToken, expiry := none }, 1)
    | _ => (.error .panicTypeAssertion, 1)

/-- `Client.Authenticate` (transactions.go:241-273): no-op on a valid
token, otherwise dispatch on the configured strategy; on success the new
token replaces the stored one, on failure the error is wrapped in an
`AuthenticationError` and the stored token is untouched.  An
unrecognised / None strategy falls through and returns nil. -/
def Authenticate (c : Client) (env : NetEnv) (now : Int) (uniqueId : String) :
    Except GoErr Unit × Client × Nat :=
  if isTokenValid c now then (.ok (), c, 0)
  else if c.authConfig.authType = .AuthTypeClientKeyAndSecret then
    match authenticateWithClientCredentials c env with
    | (.error e, calls) =>
        (.error (.authenticationError
          "Unable to authenticate using client credentials" (some e)), c, calls)
    | (.ok tok, calls) => (.ok (), { c with authToken := some tok }, calls)
  else if c.authConfig.authType = .AuthTypePublicKey then
    match authenticateWithCertificate c env now uniqueId with
    | (.error e, calls) =>
        (.error (.authenticationError
          "Unable to authenticate using client certificate" (some e)), c, calls)
    | (.ok tok, calls) => (.ok (), { c with authToken := some tok }, calls)
  else if c.authConfig.authType = .AuthTypeUser then
    match authenticateWithUserFlow c with
    | (.error e, calls) =>
        (.error (.authenticationError
          "Unable to authenticate with user flow" (some e)), c, calls)
    | (.ok tok, calls) => (.ok (), { c with authToken := tok }, calls)
  else if c.authConfig.authType = .AuthTypeBasic then
    match authenticateWithBasicAuth c env with
    | (.error e, calls) =>
        (.error (.authenticationError
          "Unable to authenticate using basic authentication" (some e)), c, calls)
    | (.ok tok, calls) => (.ok (), { c with authToken := some tok }, calls)
  else (.ok (), c, 0)

/-- `Client.checkToken` (transactions.go:227-237): authenticate iff the
stored token is nil or invalid. -/
def checkToken (c : Client) (env : NetEnv) (now : Int) (uniqueId : String) :
    Except GoErr Unit × Client × Nat :=
  if c.authToken.isNone || !(tokenValid c.authToken now) then
    Authenticate c env now uniqueId
  else (.ok (), c, 0)

/-- `Client.GetDataset` (dataset.go:39-66), up to and including the HTTP
request; the response-body decoding (which no claim touches) is folded
into the environment oracle. -/
def GetDataset (c : Client) (env : NetEnv) (now : Int) (uniqueId : String)
    (name : String) : Except GoErr Unit × Client × Nat :=
  if name = "" then (.error (.parameterError "dataset name is required" none), c, 0)
  else
    match checkToken c env now uniqueId with
    | (.error e, c2, calls) =>
        (.error (.authenticationError
          "invalid token or unable to authenticate" (some e)), c2, calls)
    | (.ok _, c2, calls) =>
      match env.streamRequest "GET" ("/datasets/" ++ name) [] with
      | .error e =>
          (.error (.requestError "unable to get dataset" (some e)), c2, calls + 1)
      | .ok _ => (.ok (), c2, calls + 1)

/-- `Client.GetEntities` (dataset.go:331-368).  Note: unlike `GetDataset`,
this function never checks `dataset == ""`, although its own doc comment
promises a ParameterError for an empty name. -/
def GetEntities (c : Client) (env : NetEnv) (now : Int) (uniqueId : String)
    (dataset fromParam : String) (take : Int) (reverse _expandURIs : Bool) :
    Except GoErr EntityCollection × Client × Nat :=
  match checkToken c env now uniqueId with
  | (.error e, c2, calls) =>
      (.error (.authenticationError "unable to authenticate" (some e)), c2, calls)
  | (.ok _, c2, calls) =>
    let params :=
      (if fromParam ≠ "" then [("from", fromParam)] else []) ++
      (if take > 0 then [("limit", toString take)] else []) ++
      (if reverse then [("reverse", "true")] else [])
    match env.streamRequest "GET" ("/datasets/" ++ dataset ++ "/entities") params with
    | .error e =>
        (.error (.requestError "unable to get entities" (some e)), c2, calls + 1)
    | .ok none =>
        (.error (.clientProcessingError "unable to parse entities" none), c2, calls + 1)
    | .ok (some coll) => (.ok coll, c2, calls + 1)

/-- The mutable iterator state of `EntitiesStream` (dataset.go:390-400):
the single in-memory batch and the position inside it.  `none` models the
nil `*EntityCollection` left behind by a failed refill. -/
structure EntitiesStream where
  currentCollection : Option EntityCollection
  currentPos : Nat
  deriving DecidableEq, Repr

/-- The shared tail of `EntitiesStream.Next` after the optional refill
(dataset.go:461-469): empty batch means end of sequence (`nil, nil`);
otherwise return the element at the current position and advance.
`calls` is the number of fetches the refill step performed. -/
def nextFromBatch (coll : EntityCollection) (pos : Nat) (calls : Nat) :
    Except GoErr (Option Entity) × EntitiesStream × Nat :=
  if coll.entities.length = 0 then
    (.ok none, { currentCollection := some coll, currentPos := pos }, calls)
  else
    match coll.entities[pos]? with
    | some entity =>
        (.ok (some entity),
         { currentCollection := some coll, currentPos := pos + 1 }, calls)
    | none =>
        (.error (.plain "index out of range"),
         { currentCollection := some coll, currentPos := pos }, calls)

/-- `EntitiesStream.Next` (dataset.go:450-470).  `fetch` is the bound
`nextBatch` closure; it receives the continuation token of the current
collection, exactly as the closure reads it at call time.  On a fetch
error the collection has already been overwritten with nil. -/
def EntitiesStream.Next (e : EntitiesStream)
    (fetch : String → Except GoErr EntityCollection) :
    Except GoErr (Option Entity) × EntitiesStream × Nat :=
  match e.currentCollection with
  | none => (.error (.plain "nil pointer dereference"), e, 0)
  | some coll0 =>
    if e.currentPos = coll0.entities.length then
      match fetch coll0.continuation with
      | .error err =>
          (.error err, { currentCollection := none, currentPos := e.currentPos }, 1)
      | .ok coll => nextFromBatch coll 0 1
    else nextFromBatch coll0 e.currentPos 0

/-- `newEntitiesStream` (dataset.go:426-448): load the initial collection
eagerly; a failure aborts construction. -/
def newEntitiesStream (c : Client) (env : NetEnv) (now : Int) (uniqueId : String)
    (dataset fromParam : String) (take : Int) (reverse expandURIs : Bool) :
    Except GoErr EntitiesStream × Client × Nat :=
  match GetEntities c env now uniqueId dataset fromParam take reverse expandURIs with
  | (.error e, c2, calls) => (.error e, c2, calls)
  | (.ok coll, c2, calls) =>
      (.ok { currentCollection := some coll, currentPos := 0 }, c2, calls)

/-- The `nextBatch` closure built by `newEntitiesStream`
(dataset.go:443-445), with the continuation-token argument made explicit. -/
def boundNextBatch (c : Client) (env : NetEnv) (now : Int) (uniqueId : String)
    (dataset : String) (take : Int) (reverse expandURIs : Bool) :
    String → Except GoErr EntityCollection :=
  fun cont =>
    (GetEntities c env now uniqueId dataset cont take reverse expandURIs).fst

/-! ## Concrete data for closed evaluations -/

/-- The zero-valued `authConfig` a fresh client starts with. -/
def cfgNone : AuthConfig :=
  { authType := .AuthTypeNone, Authorizer := "", ClientID := ""
    ClientSecret := "", Audience := "", PrivateKey := none }

/-- A fresh, unauthenticated client for server `"srv"`. -/
def clientNone : Client :=
  { authConfig := cfgNone, authToken := none, server := "srv" }

/-- An environment in which every network interaction fails with a
transport error. -/
def envDown : NetEnv :=
  { basicToken := fun _ _ _ => .error (.transportError "connection refused")
    oidcDiscovery := fun _ => .error (.transportError "connection refused")
    ccToken := fun _ _ _ _ => .error (.transportError "connection refused")
    certPostForm := fun _ _ _ _ => .error (.transportError "connection refused")
    streamRequest := fun _ _ _ => .error (.transportError "connection refused") }

/-! ## C1 — token validity predicate -/

/-- The validity predicate exactly as the spec's sentence words it, for
comparison with the code's `isTokenValid`: has accessToken AND (no expiry
tracked OR now < expiry). -/
def specTokenValid (t : Option OAuth2Token) (now : Int) : Bool :=
  match t with
  | none => false
  | some tok =>
    tok.accessToken ≠ "" &&
      (match tok.expiry with
       | none => true
       | some e => decide (now < e))

/-- C1 counterexample: a token whose expiry is 5 seconds in the future
satisfies the claim's predicate (`now < expiry` with a non-empty access
token) but `isTokenValid` is false, because oauth2's `Token.Valid`
subtracts a 10-second `defaultExpiryDelta` before comparing. -/
theorem isTokenValid_counterexample :
    specTokenValid (some { accessToken := "tok", expiry := some 105 }) 100 = true ∧
    isTokenValid
      { authConfig := cfgNone
        authToken := some { accessToken := "tok", expiry := some 105 }
        server := "srv" } 100 = false :=
  ⟨rfl, rfl⟩

/-- C1 amended: `isTokenValid` is false for a nil token and for an empty
access token, and is true exactly when the token has an access token AND
(no expiry is tracked OR `now` is at least `defaultExpiryDelta` (10 s)
before the expiry). -/
theorem isTokenValid_characterization
    (cfg : AuthConfig) (srv : String) (tok : OAuth2Token) (now : Int) :
    (isTokenValid { authConfig := cfg, authToken := none, server := srv } now
        = false) ∧
    (tok.accessToken = "" →
      isTokenValid { authConfig := cfg, authToken := some tok, server := srv } now
        = false) ∧
    (isTokenValid { authConfig := cfg, authToken := some tok, server := srv } now
        = true ↔
      tok.accessToken ≠ "" ∧
        (tok.expiry = none ∨
          ∃ e, tok.expiry = some e ∧ now ≤ e - defaultExpiryDelta)) := by
  refine ⟨rfl, ?_, ?_⟩
  · intro h
    simp [isTokenValid, tokenValid, h]
  · simp only [isTokenValid, tokenValid, OAuth2Token.expired]
    cases hexp : tok.expiry with
    | none => simp
    | some e =>
      simp only [Bool.and_eq_true, ne_eq, decide_not, Bool.not_eq_true',
        decide_eq_false_iff_not, not_lt, Option.some.injEq]
      constructor
      · rintro ⟨h1, h2⟩
        exact ⟨by simpa using h1, Or.inr ⟨e, rfl, by omega⟩⟩
      · rintro ⟨h1, h2⟩
        refine ⟨by simpa using h1, ?_⟩
        rcases h2 with h2 | ⟨e2, he2, h3⟩
        · exact absurd h2 (by simp)
        · omega

/-- C1 amended, witnessed: a token with a 100-second-future expiry is
valid at time 0. -/
theorem isTokenValid_characterization_witness :
    isTokenValid
      { authConfig := cfgNone
        authToken := some { accessToken := "t", expiry := some 100 }
        server := "srv" } 0 = true :=
  (isTokenValid_characterization cfgNone "srv"
      { accessToken := "t", expiry := some 100 } 0).2.2.mpr
    ⟨by decide, Or.inr ⟨100, rfl, by decide⟩⟩

/-! ## C2 — refresh gate is a no-op on a valid token -/

/-- C2: for a client whose current token is valid, `checkToken` and
`Authenticate` return nil, perform zero network calls and leave the whole
client (token included) unchanged; and a second `checkToken`, at any time
at which the token is still valid, again performs zero network calls. -/
theorem checkToken_valid_noop (c : Client) (env : NetEnv) (now now2 : Int)
    (u1 u2 : String) (h : isTokenValid c now = true)
    (h2 : isTokenValid c now2 = true) :
    checkToken c env now u1 = (.ok (), c, 0) ∧
    Authenticate c env now u1 = (.ok (), c, 0) ∧
    checkToken (checkToken c env now u1).snd.fst env now2 u2 = (.ok (), c, 0) := by
  cases htok : c.authToken with
  | none => simp [isTokenValid, htok] at h
  | some tok =>
    have hval : tokenValid c.authToken now = true := by
      simpa [isTokenValid, htok] using h
    have hval2 : tokenValid c.authToken now2 = true := by
      simpa [isTokenValid, htok] using h2
    have hct : checkToken c env now u1 = (.ok (), c, 0) := by
      simp [checkToken, htok, hval, htok ▸ hval]
    refine ⟨hct, by simp [Authenticate, h], ?_⟩
    rw [hct]
    simp [checkToken, htok, htok ▸ hval2]

/-- A client holding a token valid until time 100. -/
def clientValidTok : Client :=
  { authConfig := cfgNone
    authToken := some { accessToken := "t", expiry := some 100 }
    server := "srv" }

/-- C2, witnessed at a concrete valid token and the dead environment:
the gate call returns nil with zero network calls and an unchanged
client. -/
theorem checkToken_valid_noop_witness :
    checkToken clientValidTok envDown 0 "u1" = (.ok (), clientValidTok, 0) :=
  (checkToken_valid_noop clientValidTok envDown 0 5 "u1" "u2" rfl rfl).1

/-! ## C7 — required-field validation -/

/-- A client configured for ClientCredentials with an empty client key. -/
def clientC7 : Client :=
  WithClientKeyAndSecretAuth clientNone "https://authorizer" "aud" "" "secret"

/-- C7 counterexample: authenticating a ClientCredentials client with a
missing clientID fails inside `Authenticate` with an
`AuthenticationError` wrapping the plain error `"missing client id"` —
not with a ConfigurationError (no such type exists in the SDK; its
caller-misuse error is `ParameterError`, and this error is not one). -/
theorem clientCredentials_validation_counterexample :
    (Authenticate clientC7 envDown 0 "uuid-1").fst =
      .error (.authenticationError
        "Unable to authenticate using client credentials"
        (some (.plain "missing client id"))) ∧
    GoErr.isAuthenticationError
      (.authenticationError "Unable to authenticate using client credentials"
        (some (.plain "missing client id"))) = true ∧
    GoErr.isParameterError
      (.authenticationError "Unable to authenticate using client credentials"
        (some (.plain "missing client id"))) = false :=
  ⟨rfl, rfl, rfl⟩

/-- C7 amended: under the ClientCredentials strategy (the only strategy
that validates), a missing required field makes `Authenticate` fail with
an `AuthenticationError` wrapping a plain error naming the first missing
field in check order (clientID, clientSecret, authorizerURL, audience),
with zero network calls and the stored token untouched; and the
`With*Auth` builder performs no validation: it stores every field
verbatim, empty or not. -/
theorem authenticate_validation_amended (c : Client) (env : NetEnv)
    (now : Int) (u : String)
    (hty : c.authConfig.authType = .AuthTypeClientKeyAndSecret)
    (htok : isTokenValid c now = false) :
    (c.authConfig.ClientID = "" →
      Authenticate c env now u =
        (.error (.authenticationError
          "Unable to authenticate using client credentials"
          (some (.plain "missing client id"))), c, 0)) ∧
    (c.authConfig.ClientID ≠ "" → c.authConfig.ClientSecret = "" →
      Authenticate c env now u =
        (.error (.authenticationError
          "Unable to authenticate using client credentials"
          (some (.plain "missing client secret"))), c, 0)) ∧
    (c.authConfig.ClientID ≠ "" → c.authConfig.ClientSecret ≠ "" →
      c.authConfig.Authorizer = "" →
      Authenticate c env now u =
        (.error (.authenticationError
          "Unable to authenticate using client credentials"
          (some (.plain "missing authorizer url"))), c, 0)) ∧
    (c.authConfig.ClientID ≠ "" → c.authConfig.ClientSecret ≠ "" →
      c.authConfig.Authorizer ≠ "" → c.authConfig.Audience = "" →
      Authenticate c env now u =
        (.error (.authenticationError
          "Unable to authenticate using client credentials"
          (some (.plain "missing audience identifer"))), c, 0)) ∧
    (∀ (authorizer audience clientKey clientSecret : String),
      (WithClientKeyAndSecretAuth c authorizer audience clientKey
          clientSecret).authConfig =
        { authType := .AuthTypeClientKeyAndSecret, ClientID := clientKey
          ClientSecret := clientSecret, Authorizer := authorizer
          Audience := audience, PrivateKey := none }) := by
  refine ⟨?_, ?_, ?_, ?_, fun _ _ _ _ => rfl⟩ <;>
    intros <;>
      simp_all [Authenticate, authenticateWithClientCredentials, hty, htok]

/-- C7 amended, witnessed on `clientC7` (empty clientID): the failure is
the `AuthenticationError` wrapping `"missing client id"`, with zero
network calls. -/
theorem authenticate_validation_amended_witness :
    Authenticate clientC7 envDown 5 "u" =
      (.error (.authenticationError
        "Unable to authenticate using client credentials"
        (some (.plain "missing client id"))), clientC7, 0) :=
  (authenticate_validation_amended clientC7 envDown 5 "u" rfl rfl).1 rfl

/-! ## C8 — the UserFlow stub -/

/-- A client configured for UserFlow after a valid token was injected
with `WithExistingToken`. -/
def clientC8 : Client :=
  WithUserAuth
    (WithExistingToken clientNone (some { accessToken := "t", expiry := none }))
    "https://auth" "aud"

/-- C8 counterexample: for this UserFlow-configured client, whose
injected token is still valid, `Authenticate` returns without error but
the stored token is NOT set to nil — it stays the injected token, so the
claim's "always ... the stored token is set to nil" fails. -/
theorem authenticate_userflow_counterexample :
    Authenticate clientC8 envDown 0 "uuid-1" = (.ok (), clientC8, 0) ∧
    clientC8.authToken = some { accessToken := "t", expiry := none } :=
  ⟨rfl, rfl⟩

/-- C8 amended: for a UserFlow-configured client whose current token is
not valid, `Authenticate` returns without error, performs zero network
calls, and sets the stored token to nil. -/
theorem authenticate_userflow_amended (c : Client) (env : NetEnv)
    (now : Int) (u : String)
    (hty : c.authConfig.authType = .AuthTypeUser)
    (htok : isTokenValid c now = false) :
    Authenticate c env now u = (.ok (), { c with authToken := none }, 0) := by
  simp [Authenticate, hty, htok, authenticateWithUserFlow]

/-- C8 amended, witnessed: a fresh UserFlow client authenticates to a nil
token without error. -/
theorem authenticate_userflow_amended_witness :
    Authenticate (WithUserAuth clientNone "https://auth" "aud") envDown 0 "u" =
      (.ok (),
       { WithUserAuth clientNone "https://auth" "aud" with authToken := none },
       0) :=
  authenticate_userflow_amended (WithUserAuth clientNone "https://auth" "aud")
    envDown 0 "u" rfl rfl

/-! ## C10 — WithPublicKeyAuth fixes audience and authorizer -/

/-- C10: `WithPublicKeyAuth` takes only a client id and a private key; the
stored configuration always carries the fixed audience
`"datahub-client-sdk"` and the client's own server URL as authorizer
(token untouched), and the JWT assertion built on the PublicKeyJWT path
for such a client always carries `aud = ["datahub-client-sdk"]`. -/
theorem withPublicKeyAuth_fixed_audience (c : Client) (clientID : String)
    (key : Option RsaPrivateKey) (now : Int) (u : String) :
    (WithPublicKeyAuth c clientID key).authConfig =
      { authType := .AuthTypePublicKey, ClientID := clientID
        Audience := "datahub-client-sdk", PrivateKey := key
        Authorizer := c.server, ClientSecret := "" } ∧
    (WithPublicKeyAuth c clientID key).server = c.server ∧
    (WithPublicKeyAuth c clientID key).authToken = c.authToken ∧
    (certAssertion (WithPublicKeyAuth c clientID key) now u).claims.Audience =
      ["datahub-client-sdk"] :=
  ⟨rfl, rfl, rfl, rfl⟩

/-! ## C4 — PublicKeyJWT token shape -/

/-- C4: a successful `authenticateWithCertificate` yields a token whose
access token is exactly the `access_token` string of the decoded JSON
response and which records no expiry; and no other response field is
used — two environments whose responses agree on the `access_token`
lookup produce identical outcomes. -/
theorem authenticateWithCertificate_token_shape (c : Client)
    (env env2 : NetEnv) (now : Int) (u : String) (tok : OAuth2Token)
    (h : (authenticateWithCertificate c env now u).fst = .ok tok) :
    (tok.expiry = none ∧
      ∃ response,
        env.certPostForm (c.authConfig.Authorizer ++ "/security/token")
          "client_credentials" "urn:ietf:params:oauth:grant-type:jwt-bearer"
          (certAssertion c now u) = .ok response ∧
        jsonLookup "access_token" response = some (.str tok.accessToken)) ∧
    (∀ r1 r2,
      env.certPostForm (c.authConfig.Authorizer ++ "/security/token")
        "client_credentials" "urn:ietf:params:oauth:grant-type:jwt-bearer"
        (certAssertion c now u) = .ok r1 →
      env2.certPostForm (c.authConfig.Authorizer ++ "/security/token")
        "client_credentials" "urn:ietf:params:oauth:grant-type:jwt-bearer"
        (certAssertion c now u) = .ok r2 →
      jsonLookup "access_token" r1 = jsonLookup "access_token" r2 →
      authenticateWithCertificate c env now u =
        authenticateWithCertificate c env2 now u) := by
  constructor
  · simp only [authenticateWithCertificate] at h
    cases hres : env.certPostForm (c.authConfig.Authorizer ++ "/security/token")
        "client_credentials" "urn:ietf:params:oauth:grant-type:jwt-bearer"
        (certAssertion c now u) with
    | error e =>
      rw [hres] at h
      exact absurd h (by simp)
    | ok response =>
      rw [hres] at h
      dsimp only at h
      cases hlk : jsonLookup "access_token" response with
      | none =>
        rw [hlk] at h
        exact absurd h (by simp)
      | some v =>
        rw [hlk] at h
        cases v with
        | str s =>
          have htok : tok = { accessToken := s, expiry := none } := by
            simpa using h.symm
          subst htok
          exact ⟨rfl, response, rfl, by simpa using hlk⟩
        | num n => exact absurd h (by simp)
        | boolean b => exact absurd h (by simp)
        | null => exact absurd h (by simp)
  · intro r1 r2 h1 h2 hagree
    simp only [authenticateWithCertificate, h1, h2, hagree]

/-- A PublicKeyJWT-configured client and an environment whose token
endpoint answers with an access token plus extra fields. -/
def clientPK : Client :=
  WithPublicKeyAuth clientNone "client-1"
    (some { n := 55, e := 3, d := 7, p := 5, q := 11 })

def envCert : NetEnv :=
  { envDown with
    certPostForm := fun _ _ _ _ =>
      .ok [("access_token", .str "abc"), ("expires_in", .num 3600),
           ("token_type", .str "Bearer")] }

/-- C4, witnessed: the token produced from `envCert`'s response records no
expiry. -/
theorem authenticateWithCertificate_token_shape_witness :
    ({ accessToken := "abc", expiry := none } : OAuth2Token).expiry = none ∧
    ∃ response,
      envCert.certPostForm (clientPK.authConfig.Authorizer ++ "/security/token")
        "client_credentials" "urn:ietf:params:oauth:grant-type:jwt-bearer"
        (certAssertion clientPK 0 "u") = .ok response ∧
      jsonLookup "access_token" response = some (.str "abc") :=
  (authenticateWithCertificate_token_shape clientPK envCert envCert 0 "u"
    { accessToken := "abc", expiry := none } rfl).1

/-! ## C5 — JWT assertion claims -/

/-- C5: every assertion built by `createJWTForTokenRequest` carries
`sub` = the subject argument (the clientID at the call site), `aud` = the
one-element audience list, `exp = now + 60` (hence within
`[now, now + 60]`), is signed with RS256, and its `jti` is exactly the
uuid drawn for the call — so two calls drawing distinct uuids produce
distinct `jti` even at the same `now`. -/
theorem createJWTForTokenRequest_claims (subject audience : String)
    (now : Int) (u1 u2 : String) (hu : u1 ≠ u2) :
    (createJWTForTokenRequest subject audience now u1).claims.Subject
        = subject ∧
    (createJWTForTokenRequest subject audience now u1).claims.Audience
        = [audience] ∧
    (createJWTForTokenRequest subject audience now u1).claims.ExpiresAt
        = some (now + 60) ∧
    (∀ e, (createJWTForTokenRequest subject audience now u1).claims.ExpiresAt
        = some e → now ≤ e ∧ e ≤ now + 60) ∧
    (createJWTForTokenRequest subject audience now u1).alg = "RS256" ∧
    (createJWTForTokenRequest subject audience now u1).claims.ID = u1 ∧
    (createJWTForTokenRequest subject audience now u1).claims.ID ≠
      (createJWTForTokenRequest subject audience now u2).claims.ID := by
  refine ⟨rfl, rfl, rfl, ?_, rfl, rfl, ?_⟩
  · intro e he
    simp only [createJWTForTokenRequest, Option.some.injEq] at he
    omega
  · simpa [createJWTForTokenRequest] using hu

/-- C5, witnessed: two assertions built in the same second (`now = 0`)
with distinct uuids have distinct `jti`. -/
theorem createJWTForTokenRequest_claims_witness :
    (createJWTForTokenRequest "client-1" "aud" 0 "uuid-a").claims.ID ≠
      (createJWTForTokenRequest "client-1" "aud" 0 "uuid-b").claims.ID :=
  (createJWTForTokenRequest_claims "client-1" "aud" 0 "uuid-a" "uuid-b"
    (by decide)).2.2.2.2.2.2

/-! ## C3 — streaming iterator -/

def entityOne : Entity := { id := "entity-1" }
def entityTwo : Entity := { id := "entity-2" }

/-- An environment serving a two-record dataset `people` in pages of one:
the initial page, the page after continuation `c1`, and the empty page
after continuation `c2`. -/
def envTwoRecords : NetEnv :=
  { envDown with
    streamRequest := fun verb path params =>
      if verb = "GET" ∧ path = "/datasets/people/entities" then
        if params = [("limit", "1")] then
          .ok (some { entities := [entityOne], continuation := "c1" })
        else if params = [("from", "c1"), ("limit", "1")] then
          .ok (some { entities := [entityTwo], continuation := "c2" })
        else if params = [("from", "c2"), ("limit", "1")] then
          .ok (some { entities := [], continuation := "c2" })
        else .error (.transportError "no such page")
      else .error (.transportError "not found") }

/-- The bound `nextBatch` closure for the scenario iterator. -/
def scenarioFetch : String → Except GoErr EntityCollection :=
  boundNextBatch clientNone envTwoRecords 0 "u" "people" 1 false false

/-- C3: `Next` fetches only when the in-memory batch is exhausted (zero
fetch calls otherwise, returning the item at the current position and
advancing it); an exhausted batch triggers exactly one fetch, and an
empty fetched batch ends the sequence with no item and no error.  In the
two-record page-size-1 scenario, the constructed iterator yields
entity-1, entity-2, none, and none again. -/
theorem entitiesStream_next_spec (coll newColl : EntityCollection)
    (pos : Nat) (entity : Entity)
    (fetch : String → Except GoErr EntityCollection) :
    (coll.entities[pos]? = some entity →
      EntitiesStream.Next { currentCollection := some coll, currentPos := pos }
          fetch =
        (.ok (some entity),
         { currentCollection := some coll, currentPos := pos + 1 }, 0)) ∧
    (pos = coll.entities.length → fetch coll.continuation = .ok newColl →
      newColl.entities = [] →
      EntitiesStream.Next { currentCollection := some coll, currentPos := pos }
          fetch =
        (.ok none, { currentCollection := some newColl, currentPos := 0 }, 1)) ∧
    (pos = coll.entities.length → fetch coll.continuation = .ok newColl →
      newColl.entities[0]? = some entity →
      EntitiesStream.Next { currentCollection := some coll, currentPos := pos }
          fetch =
        (.ok (some entity),
         { currentCollection := some newColl, currentPos := 1 }, 1)) ∧
    (newEntitiesStream clientNone envTwoRecords 0 "u" "people" "" 1 false false =
      (.ok { currentCollection :=
               some { entities := [entityOne], continuation := "c1" }
             currentPos := 0 }, clientNone, 1) ∧
     EntitiesStream.Next
         { currentCollection :=
             some { entities := [entityOne], continuation := "c1" }
           currentPos := 0 } scenarioFetch =
       (.ok (some entityOne),
        { currentCollection :=
            some { entities := [entityOne], continuation := "c1" }
          currentPos := 1 }, 0) ∧
     EntitiesStream.Next
         { currentCollection :=
             some { entities := [entityOne], continuation := "c1" }
           currentPos := 1 } scenarioFetch =
       (.ok (some entityTwo),
        { currentCollection :=
            some { entities := [entityTwo], continuation := "c2" }
          currentPos := 1 }, 1) ∧
     EntitiesStream.Next
         { currentCollection :=
             some { entities := [entityTwo], continuation := "c2" }
           currentPos := 1 } scenarioFetch =
       (.ok none,
        { currentCollection := some { entities := [], continuation := "c2" }
          currentPos := 0 }, 1) ∧
     EntitiesStream.Next
         { currentCollection := some { entities := [], continuation := "c2" }
           currentPos := 0 } scenarioFetch =
       (.ok none,
        { currentCollection := some { entities := [], continuation := "c2" }
          currentPos := 0 }, 1)) := by
  refine ⟨?_, ?_, ?_, rfl, rfl, rfl, rfl, rfl⟩
  · intro ha
    have hlt : pos < coll.entities.length := by
      have := List.getElem?_eq_some_iff.mp ha
      exact this.1
    have hne : pos ≠ coll.entities.length := Nat.ne_of_lt hlt
    have hlen : coll.entities.length ≠ 0 := by omega
    simp [EntitiesStream.Next, hne, nextFromBatch, hlen, ha]
  · intro hpos hfetch hempty
    simp [EntitiesStream.Next, hpos, hfetch, nextFromBatch, hempty]
  · intro hpos hfetch hhead
    have hlt := (List.getElem?_eq_some_iff.mp hhead).1
    have hlen : newColl.entities.length ≠ 0 := by omega
    simp [EntitiesStream.Next, hpos, hfetch, nextFromBatch, hlen, hhead]

/-- C3, witnessed: the first scenario step through the general clause —
the in-memory batch is not exhausted, so no fetch happens and entity-1 is
returned. -/
theorem entitiesStream_next_spec_witness :
    EntitiesStream.Next
        { currentCollection :=
            some { entities := [entityOne], continuation := "c1" }
          currentPos := 0 } scenarioFetch =
      (.ok (some entityOne),
       { currentCollection :=
           some { entities := [entityOne], continuation := "c1" }
         currentPos := 1 }, 0) :=
  (entitiesStream_next_spec { entities := [entityOne], continuation := "c1" }
    { entities := [], continuation := "" } 0 entityOne scenarioFetch).1 rfl

/-! ## C9 — missing parameter validation in GetEntities -/

/-- A client configured for Basic auth with no token yet. -/
def clientBasic : Client := WithAdminAuth clientNone "admin" "pw"

/-- C9 (code bug): `GetEntities` called with an empty dataset name does
not return a ParameterError before I/O, contradicting its own doc comment
("returns a ParameterError if the dataset name is empty").  On an
unauthenticated Basic-auth client it first attempts authentication (one
network call, surfacing an AuthenticationError here); on a no-auth client
it issues the HTTP request `/datasets//entities` (one network call,
surfacing a RequestError).  `GetDataset`, by contrast, implements the
check the claim describes: ParameterError with zero network calls. -/
theorem getEntities_empty_name_code_bug :
    GetEntities clientBasic envDown 0 "u" "" "" 0 false false =
      (.error (.authenticationError "unable to authenticate"
        (some (.authenticationError
          "Unable to authenticate using basic authentication"
          (some (.transportError "connection refused"))))), clientBasic, 1) ∧
    GetEntities clientNone envDown 0 "u" "" "" 0 false false =
      (.error (.requestError "unable to get entities"
        (some (.transportError "connection refused"))), clientNone, 1) ∧
    GetDataset clientNone envDown 0 "u" "" =
      (.error (.parameterError "dataset name is required" none), clientNone, 0) :=
  ⟨rfl, rfl, rfl⟩

/-! ## C6 — key material: DER / base64 / PEM byte-level model

The export functions compose `x509.MarshalPKCS8PrivateKey` /
`MarshalPKIXPublicKey` with `pem.EncodeToMemory`; the parse functions
compose `pem.Decode` with `x509.ParsePKCS1/PKCS8PrivateKey` /
`ParsePKIXPublicKey` (via `jwt.ParseRSAPrivateKeyFromPEM`).  Those
standard-library layers are modelled byte-for-byte below: DER with
definite lengths and minimal big-endian INTEGERs, standard base64 with
padding, and 64-column PEM armor. -/

/-- Little-endian base-256 digits of `n`; `fuel ≥ n` suffices for the
recursion (structural fuel keeps every definition kernel-reducible). -/
def leDigits : Nat → Nat → List Nat
  | 0, _ => []
  | _ + 1, 0 => []
  | fuel + 1, n + 1 => (n + 1) % 256 :: leDigits fuel ((n + 1) / 256)

/-- Minimal big-endian byte string of `n`, at least one byte (the content
bytes `math/big.Int.Bytes` yields, with `[0]` for zero as DER requires). -/
def beBytes (n : Nat) : List Nat :=
  if n = 0 then [0] else (leDigits n n).reverse

/-- Value of a big-endian byte string. -/
def beVal (bs : List Nat) : Nat := bs.foldl (fun acc b => acc * 256 + b) 0

theorem beVal_append (l : List Nat) (b : Nat) :
    beVal (l ++ [b]) = beVal l * 256 + b := by
  simp [beVal, List.foldl_append]

theorem beVal_cons_zero (bs : List Nat) : beVal (0 :: bs) = beVal bs := rfl

theorem beVal_leDigits_reverse (fuel n : Nat) (h : n ≤ fuel) :
    beVal (leDigits fuel n).reverse = n := by
  induction fuel generalizing n with
  | zero =>
    interval_cases n
    simp [leDigits, beVal]
  | succ f ih =>
    cases n with
    | zero => simp [leDigits, beVal]
    | succ m =>
      have hdiv : (m + 1) / 256 ≤ f := by
        have := Nat.div_lt_self (show 0 < m + 1 by omega) (show 1 < 256 by omega)
        omega
      simp only [leDigits, List.reverse_cons]
      rw [beVal_append, ih _ hdiv]
      omega

theorem beVal_beBytes (n : Nat) : beVal (beBytes n) = n := by
  by_cases h : n = 0
  · simp [beBytes, h, beVal]
  · simp only [beBytes, if_neg h]
    exact beVal_leDigits_reverse n n le_rfl

theorem leDigits_lt (fuel n : Nat) : ∀ b ∈ leDigits fuel n, b < 256 := by
  induction fuel generalizing n with
  | zero => simp [leDigits]
  | succ f ih =>
    cases n with
    | zero => simp [leDigits]
    | succ m =>
      intro b hb
      simp only [leDigits, List.mem_cons] at hb
      rcases hb with hb | hb
      · omega
      · exact ih _ _ hb

theorem leDigits_length_le (fuel n k : Nat) (h : n < 256 ^ k) :
    (leDigits fuel n).length ≤ k := by
  induction fuel generalizing n k with
  | zero => simp [leDigits]
  | succ f ih =>
    cases n with
    | zero => simp [leDigits]
    | succ m =>
      cases k with
      | zero => simp [Nat.pow_zero] at h
      | succ k2 =>
        simp only [leDigits, List.length_cons]
        have hq : (m + 1) / 256 < 256 ^ k2 := by
          rw [Nat.div_lt_iff_lt_mul (by omega)]
          calc m + 1 < 256 ^ (k2 + 1) := h
            _ = 256 ^ k2 * 256 := by rw [Nat.pow_succ]
        have := ih ((m + 1) / 256) k2 hq
        omega

theorem beBytes_length_le (n k : Nat) (h : n < 256 ^ k) :
    (beBytes n).length ≤ k + 1 := by
  by_cases h0 : n = 0
  · simp [beBytes, h0]
  · simp only [beBytes, if_neg h0, List.length_reverse]
    have := leDigits_length_le n n k h
    omega

theorem beBytes_lt (n : Nat) : ∀ b ∈ beBytes n, b < 256 := by
  by_cases h0 : n = 0
  · simp [beBytes, h0]
  · simp only [beBytes, if_neg h0]
    intro b hb
    exact leDigits_lt n n b (List.mem_reverse.mp hb)

/-- DER definite-length encoding: one byte below 128, otherwise
`0x80 | numBytes` followed by the minimal big-endian length bytes.  The
first byte is a Go `byte`, hence the explicit `% 256`. -/
def derLen (n : Nat) : List Nat :=
  if n < 128 then [n]
  else (128 + (leDigits n n).length) % 256 :: (leDigits n n).reverse

/-- A length value whose DER encoding is parsed back faithfully: short
form, or a long form whose byte count fits the low 7 bits.  Every length
arising from any input a real process can hold satisfies this. -/
def lenOK (n : Nat) : Prop := n < 128 ∨ (leDigits n n).length < 128

theorem lenOK_of_lt (n : Nat) (h : n < 256 ^ 127) : lenOK n := by
  by_cases h1 : n < 128
  · exact Or.inl h1
  · exact Or.inr (by
      have := leDigits_length_le n n 127 h
      omega)

def parseLen : List Nat → Option (Nat × List Nat)
  | [] => none
  | b :: rest =>
    if b < 128 then some (b, rest)
    else if rest.length < b - 128 then none
    else some (beVal (rest.take (b - 128)), rest.drop (b - 128))

theorem parseLen_spec (n : Nat) (r : List Nat) (h : lenOK n) :
    parseLen (derLen n ++ r) = some (n, r) := by
  by_cases h1 : n < 128
  · simp [derLen, parseLen, h1]
  · have hlen : (leDigits n n).length < 128 := h.resolve_left h1
    have hmod : (128 + (leDigits n n).length) % 256 = 128 + (leDigits n n).length :=
      Nat.mod_eq_of_lt (by omega)
    simp only [derLen, if_neg h1, List.cons_append, parseLen, hmod]
    rw [if_neg (by omega)]
    have hk : 128 + (leDigits n n).length - 128 = (leDigits n n).length := by omega
    have hrl : (leDigits n n).reverse.length = (leDigits n n).length :=
      List.length_reverse _
    have htake : ((leDigits n n).reverse ++ r).take
        (128 + (leDigits n n).length - 128) = (leDigits n n).reverse := by
      rw [hk, ← hrl, List.take_left]
    have hdrop : ((leDigits n n).reverse ++ r).drop
        (128 + (leDigits n n).length - 128) = r := by
      rw [hk, ← hrl, List.drop_left]
    have hnl : ¬ (((leDigits n n).reverse ++ r).length <
        128 + (leDigits n n).length - 128) := by
      simp only [List.length_append, hrl]
      omega
    rw [if_neg hnl, htake, hdrop, beVal_leDigits_reverse n n le_rfl]

theorem derLen_lt (n : Nat) : ∀ b ∈ derLen n, b < 256 := by
  by_cases h1 : n < 128
  · simp only [derLen, if_pos h1]
    intro b hb
    simp only [List.mem_singleton] at hb
    omega
  · simp only [derLen, if_neg h1]
    intro b hb
    simp only [List.mem_cons] at hb
    rcases hb with hb | hb
    · omega
    · exact leDigits_lt n n b (List.mem_reverse.mp hb)

theorem derLen_length_le (n k : Nat) (h : n < 256 ^ k) :
    (derLen n).length ≤ k + 1 := by
  by_cases h1 : n < 128
  · simp [derLen, h1]
  · simp only [derLen, if_neg h1, List.length_cons, List.length_reverse]
    have := leDigits_length_le n n k h
    omega

/-- A DER TLV: tag byte, definite length, content. -/
def derTagged (tag : Nat) (content : List Nat) : List Nat :=
  tag :: derLen content.length ++ content

def parseTagged (tag : Nat) : List Nat → Option (List Nat × List Nat)
  | [] => none
  | t :: rest =>
    if t = tag then
      match parseLen rest with
      | none => none
      | some (len, r2) =>
        if r2.length < len then none
        else some (r2.take len, r2.drop len)
    else none

theorem parseTagged_spec (tag : Nat) (content r : List Nat)
    (h : lenOK content.length) :
    parseTagged tag (derTagged tag content ++ r) = some (content, r) := by
  simp only [derTagged, List.cons_append, List.append_assoc, parseTagged,
    if_pos rfl]
  rw [parseLen_spec _ _ h]
  simp only [if_true]
  rw [if_neg (by simp only [List.length_append]; omega)]
  rw [List.take_left, List.drop_left]

theorem parseTagged_self (tag : Nat) (content : List Nat)
    (h : lenOK content.length) :
    parseTagged tag (derTagged tag content) = some (content, []) := by
  rw [← List.append_nil (derTagged tag content)]
  exact parseTagged_spec tag content [] h

theorem derTagged_lt (tag : Nat) (content : List Nat) (htag : tag < 256)
    (h : ∀ b ∈ content, b < 256) : ∀ b ∈ derTagged tag content, b < 256 := by
  intro b hb
  simp only [derTagged] at hb
  rcases List.mem_cons.mp hb with h1 | h2
  · omega
  · rcases List.mem_append.mp h2 with h3 | h4
    · exact derLen_lt _ b h3
    · exact h b h4

theorem derTagged_length_le (tag : Nat) (content : List Nat) (k : Nat)
    (h : content.length < 256 ^ k) :
    (derTagged tag content).length ≤ content.length + k + 2 := by
  simp only [derTagged, List.length_cons, List.length_append]
  have := derLen_length_le content.length k h
  omega

/-- DER INTEGER content for a non-negative value: minimal big-endian
bytes, 0x00-prefixed when the top bit is set (two's-complement sign). -/
def derIntContent (n : Nat) : List Nat :=
  if 128 ≤ (beBytes n).headD 0 then 0 :: beBytes n else beBytes n

/-- DER INTEGER (tag 0x02). -/
def derInt (n : Nat) : List Nat := derTagged 2 (derIntContent n)

/-- Parse a DER INTEGER, returning its non-negative value and the rest of
the input.  (The Go asn1 reader additionally rejects non-minimal
encodings, which never arise from the encoder.) -/
def parseIntDER (bs : List Nat) : Option (Nat × List Nat) :=
  match parseTagged 2 bs with
  | none => none
  | some (content, r) => some (beVal content, r)

theorem beVal_derIntContent (n : Nat) : beVal (derIntContent n) = n := by
  by_cases h : 128 ≤ (beBytes n).headD 0
  · simp only [derIntContent, if_pos h, beVal_cons_zero, beVal_beBytes]
  · simp only [derIntContent, if_neg h, beVal_beBytes]

theorem parseIntDER_spec (n : Nat) (r : List Nat)
    (h : lenOK (derIntContent n).length) :
    parseIntDER (derInt n ++ r) = some (n, r) := by
  simp only [parseIntDER, derInt]
  rw [parseTagged_spec 2 _ r h]
  dsimp only
  rw [beVal_derIntContent]

theorem parseIntDER_self (n : Nat) (h : lenOK (derIntContent n).length) :
    parseIntDER (derInt n) = some (n, []) := by
  rw [← List.append_nil (derInt n)]
  exact parseIntDER_spec n [] h

theorem derIntContent_lt (n : Nat) : ∀ b ∈ derIntContent n, b < 256 := by
  intro b hb
  by_cases h : 128 ≤ (beBytes n).headD 0
  · simp only [derIntContent, if_pos h, List.mem_cons] at hb
    rcases hb with hb | hb
    · omega
    · exact beBytes_lt n b hb
  · simp only [derIntContent, if_neg h] at hb
    exact beBytes_lt n b hb

theorem derInt_lt (n : Nat) : ∀ b ∈ derInt n, b < 256 :=
  derTagged_lt 2 _ (by omega) (derIntContent_lt n)

theorem derIntContent_length_le (n k : Nat) (h : n < 256 ^ k) :
    (derIntContent n).length ≤ k + 2 := by
  have := beBytes_length_le n k h
  by_cases h1 : 128 ≤ (beBytes n).headD 0
  · simp only [derIntContent, if_pos h1, List.length_cons]
    omega
  · simp only [derIntContent, if_neg h1]
    omega

theorem derInt_length_le (n k : Nat) (h : n < 256 ^ k) (hk : k ≤ 65000) :
    (derInt n).length ≤ k + 6 := by
  have hc := derIntContent_length_le n k h
  have hc2 : (derIntContent n).length < 256 ^ 2 := by
    norm_num
    omega
  have := derTagged_length_le 2 (derIntContent n) 2 hc2
  simp only [derInt]
  omega

/-! ### Standard base64 (encoding/base64 StdEncoding, with padding) -/

/-- The standard base64 alphabet as ASCII byte values:
`A-Z`, `a-z`, `0-9`, `+`, `/`. -/
def b64Alphabet : List Nat :=
  [65, 66, 67, 68, 69, 70, 71, 72, 73, 74, 75, 76, 77, 78, 79, 80, 81, 82,
   83, 84, 85, 86, 87, 88, 89, 90,
   97, 98, 99, 100, 101, 102, 103, 104, 105, 106, 107, 108, 109, 110, 111,
   112, 113, 114, 115, 116, 117, 118, 119, 120, 121, 122,
   48, 49, 50, 51, 52, 53, 54, 55, 56, 57, 43, 47]

def b64Char (v : Nat) : Nat := b64Alphabet.getD v 0

def b64Index (c : Nat) : Option Nat := b64Alphabet.findIdx? (fun x => x == c)

theorem b64Index_b64Char : ∀ v, v < 64 → b64Index (b64Char v) = some v := by
  decide

theorem b64Char_ne_61 (v : Nat) : b64Char v ≠ 61 := by
  by_cases h : v < 64
  · revert v
    decide
  · have hlen : b64Alphabet.length ≤ v := by
      have : b64Alphabet.length = 64 := by decide
      omega
    unfold b64Char
    rw [List.getD_eq_default _ _ hlen]
    omega

theorem b64Char_ne_10 (v : Nat) : b64Char v ≠ 10 := by
  by_cases h : v < 64
  · revert v
    decide
  · have hlen : b64Alphabet.length ≤ v := by
      have : b64Alphabet.length = 64 := by decide
      omega
    unfold b64Char
    rw [List.getD_eq_default _ _ hlen]
    omega

/-- base64-encode a byte string, three bytes to four characters,
`=`-padding the final quantum (`61` is ASCII `=`). -/
def b64Encode : List Nat → List Nat
  | [] => []
  | [b1] => [b64Char (b1 / 4), b64Char (b1 % 4 * 16), 61, 61]
  | [b1, b2] =>
    [b64Char (b1 / 4), b64Char (b1 % 4 * 16 + b2 / 16), b64Char (b2 % 16 * 4), 61]
  | b1 :: b2 :: b3 :: rest =>
    b64Char (b1 / 4) :: b64Char (b1 % 4 * 16 + b2 / 16) ::
      b64Char (b2 % 16 * 4 + b3 / 64) :: b64Char (b3 % 64) :: b64Encode rest

/-- base64-decode: four-character quanta, padding allowed only in a final
quantum; anything else (stray length, `=` mid-stream, byte outside the
alphabet) is a decode error, as in Go's `StdEncoding`. -/
def b64Decode : List Nat → Option (List Nat)
  | [] => some []
  | c1 :: c2 :: c3 :: c4 :: rest =>
    if c3 = 61 ∧ c4 = 61 ∧ rest = [] then
      match b64Index c1, b64Index c2 with
      | some v1, some v2 => some [v1 * 4 + v2 / 16]
      | _, _ => none
    else if c4 = 61 ∧ rest = [] then
      match b64Index c1, b64Index c2, b64Index c3 with
      | some v1, some v2, some v3 =>
        some [v1 * 4 + v2 / 16, v2 % 16 * 16 + v3 / 4]
      | _, _, _ => none
    else
      match b64Index c1, b64Index c2, b64Index c3, b64Index c4, b64Decode rest with
      | some v1, some v2, some v3, some v4, some ds =>
        some ((v1 * 4 + v2 / 16) :: (v2 % 16 * 16 + v3 / 4) ::
          (v3 % 4 * 64 + v4) :: ds)
      | _, _, _, _, _ => none
  | _ => none

theorem mem_b64Encode_shape (bs : List Nat) :
    ∀ c ∈ b64Encode bs, c = 61 ∨ ∃ v, c = b64Char v := by
  induction bs using b64Encode.induct with
  | case1 => simp [b64Encode]
  | case2 b1 =>
    intro c hc
    simp only [b64Encode, List.mem_cons, List.not_mem_nil, or_false] at hc
    rcases hc with rfl | rfl | rfl | rfl
    · exact Or.inr ⟨_, rfl⟩
    · exact Or.inr ⟨_, rfl⟩
    · exact Or.inl rfl
    · exact Or.inl rfl
  | case3 b1 b2 =>
    intro c hc
    simp only [b64Encode, List.mem_cons, List.not_mem_nil, or_false] at hc
    rcases hc with rfl | rfl | rfl | rfl
    · exact Or.inr ⟨_, rfl⟩
    · exact Or.inr ⟨_, rfl⟩
    · exact Or.inr ⟨_, rfl⟩
    · exact Or.inl rfl
  | case4 b1 b2 b3 rest ih =>
    intro c hc
    simp only [b64Encode, List.mem_cons] at hc
    rcases hc with rfl | rfl | rfl | rfl | hc
    · exact Or.inr ⟨_, rfl⟩
    · exact Or.inr ⟨_, rfl⟩
    · exact Or.inr ⟨_, rfl⟩
    · exact Or.inr ⟨_, rfl⟩
    · exact ih c hc

theorem b64Encode_ne_10 (bs : List Nat) : ∀ c ∈ b64Encode bs, c ≠ 10 := by
  intro c hc
  rcases mem_b64Encode_shape bs c hc with rfl | ⟨v, rfl⟩
  · omega
  · exact b64Char_ne_10 v

theorem b64Decode_b64Encode (bs : List Nat) (h : ∀ b ∈ bs, b < 256) :
    b64Decode (b64Encode bs) = some bs := by
  induction bs using b64Encode.induct with
  | case1 => rfl
  | case2 b1 =>
    have hb1 : b1 < 256 := h b1 (by simp)
    have i1 := b64Index_b64Char (b1 / 4) (by omega)
    have i2 := b64Index_b64Char (b1 % 4 * 16) (by omega)
    simp [b64Encode, b64Decode, i1, i2]
    omega
  | case3 b1 b2 =>
    have hb1 : b1 < 256 := h b1 (by simp)
    have hb2 : b2 < 256 := h b2 (by simp)
    have h61a := b64Char_ne_61 (b2 % 16 * 4)
    have i1 := b64Index_b64Char (b1 / 4) (by omega)
    have i2 := b64Index_b64Char (b1 % 4 * 16 + b2 / 16) (by omega)
    have i3 := b64Index_b64Char (b2 % 16 * 4) (by omega)
    simp [b64Encode, b64Decode, h61a, i1, i2, i3]
    constructor
    all_goals omega
  | case4 b1 b2 b3 rest ih =>
    have hb1 : b1 < 256 := h b1 (by simp)
    have hb2 : b2 < 256 := h b2 (by simp)
    have hb3 : b3 < 256 := h b3 (by simp)
    have hrest : ∀ b ∈ rest, b < 256 := fun b hb => h b (by simp [hb])
    have h61a := b64Char_ne_61 (b2 % 16 * 4 + b3 / 64)
    have h61b := b64Char_ne_61 (b3 % 64)
    have i1 := b64Index_b64Char (b1 / 4) (by omega)
    have i2 := b64Index_b64Char (b1 % 4 * 16 + b2 / 16) (by omega)
    have i3 := b64Index_b64Char (b2 % 16 * 4 + b3 / 64) (by omega)
    have i4 := b64Index_b64Char (b3 % 64) (by omega)
    simp [b64Encode, b64Decode, h61a, h61b, i1, i2, i3, i4, ih hrest]
    refine ⟨by omega, by omega, by omega⟩

/-! ### PEM armor (encoding/pem) -/

/-- 64-column line wrapping with a trailing newline per line, as
`pem.EncodeToMemory` writes the base64 body (`10` is ASCII LF).  The fuel
is the list length; the fuel-exhausted branch is unreachable. -/
def wrap64Go : Nat → List Nat → List Nat
  | _, [] => []
  | 0, l => l ++ [10]
  | fuel + 1, l => l.take 64 ++ 10 :: wrap64Go fuel (l.drop 64)

def wrap64 (l : List Nat) : List Nat := wrap64Go l.length l

theorem filter_wrap64Go (fuel : Nat) :
    ∀ (l : List Nat), l.length ≤ fuel → (∀ b ∈ l, b ≠ 10) →
      (wrap64Go fuel l).filter (fun b => b != 10) = l := by
  induction fuel with
  | zero =>
    intro l hl _
    have : l = [] := List.eq_nil_of_length_eq_zero (by omega)
    subst this
    rfl
  | succ f ih =>
    intro l hl hmem
    cases l with
    | nil => rfl
    | cons x xs =>
      simp only [wrap64Go, List.filter_append, List.filter_cons]
      have h10 : ((10 : Nat) != 10) = false := by decide
      simp only [h10, Bool.false_eq_true, if_false]
      have htk : ((x :: xs).take 64).filter (fun b => b != 10) =
          (x :: xs).take 64 := by
        apply List.filter_eq_self.mpr
        intro b hb
        have hbmem : b ∈ x :: xs := List.take_subset _ _ hb
        simpa using hmem b hbmem
      have hdr : (wrap64Go f ((x :: xs).drop 64)).filter (fun b => b != 10) =
          (x :: xs).drop 64 := by
        apply ih
        · simp only [List.length_drop, List.length_cons]
          simp only [List.length_cons] at hl
          omega
        · intro b hb
          exact hmem b (List.drop_subset _ _ hb)
      rw [htk, hdr, List.take_append_drop]

theorem filter_wrap64 (l : List Nat) (h : ∀ b ∈ l, b ≠ 10) :
    (wrap64 l).filter (fun b => b != 10) = l :=
  filter_wrap64Go l.length l le_rfl h

/-- ASCII bytes of a string (all PEM framing text is ASCII). -/
def strBytes (s : String) : List Nat := s.data.map Char.toNat

def pemHeader (typ : String) : List Nat :=
  strBytes ("-----BEGIN " ++ typ ++ "-----") ++ [10]

def pemFooter (typ : String) : List Nat :=
  strBytes ("-----END " ++ typ ++ "-----") ++ [10]

/-- `pem.EncodeToMemory`: BEGIN line, 64-column base64 body, END line. -/
def pemEncodeToMemory (typ : String) (body : List Nat) : List Nat :=
  pemHeader typ ++ wrap64 (b64Encode body) ++ pemFooter typ

/-- `pem.Decode`, restricted to exactly the armor shape the encoder
produces (the Go scanner also tolerates leading text and other block
types; on encoder output both agree): strip the BEGIN/END lines, drop
newlines, base64-decode the body. -/
def pemDecode (typ : String) (bs : List Nat) : Option (List Nat) :=
  if bs.take (pemHeader typ).length = pemHeader typ ∧
      (pemFooter typ).length ≤ (bs.drop (pemHeader typ).length).length ∧
      (bs.drop (pemHeader typ).length).drop
          ((bs.drop (pemHeader typ).length).length - (pemFooter typ).length) =
        pemFooter typ then
    b64Decode
      (((bs.drop (pemHeader typ).length).take
          ((bs.drop (pemHeader typ).length).length - (pemFooter typ).length)).filter
        (fun b => b != 10))
  else none

theorem pemDecode_pemEncode (typ : String) (body : List Nat)
    (h : ∀ b ∈ body, b < 256) :
    pemDecode typ (pemEncodeToMemory typ body) = some body := by
  have hdrop1 : (pemEncodeToMemory typ body).drop (pemHeader typ).length =
      wrap64 (b64Encode body) ++ pemFooter typ := by
    simp only [pemEncodeToMemory, ← List.append_assoc]
    rw [List.append_assoc (pemHeader typ)]
    exact List.drop_left _ _
  have htake1 : (pemEncodeToMemory typ body).take (pemHeader typ).length =
      pemHeader typ := by
    simp only [pemEncodeToMemory, ← List.append_assoc]
    rw [List.append_assoc (pemHeader typ)]
    exact List.take_left _ _
  have hlen : (wrap64 (b64Encode body) ++ pemFooter typ).length -
      (pemFooter typ).length = (wrap64 (b64Encode body)).length := by
    simp only [List.length_append]
    omega
  have hdrop2 : (wrap64 (b64Encode body) ++ pemFooter typ).drop
      ((wrap64 (b64Encode body) ++ pemFooter typ).length - (pemFooter typ).length)
      = pemFooter typ := by
    rw [hlen]
    exact List.drop_left _ _
  have htake2 : (wrap64 (b64Encode body) ++ pemFooter typ).take
      ((wrap64 (b64Encode body) ++ pemFooter typ).length - (pemFooter typ).length)
      = wrap64 (b64Encode body) := by
    rw [hlen]
    exact List.take_left _ _
  have hcond : (pemEncodeToMemory typ body).take (pemHeader typ).length =
      pemHeader typ ∧
      (pemFooter typ).length ≤
        ((pemEncodeToMemory typ body).drop (pemHeader typ).length).length ∧
      ((pemEncodeToMemory typ body).drop (pemHeader typ).length).drop
          (((pemEncodeToMemory typ body).drop (pemHeader typ).length).length -
            (pemFooter typ).length) = pemFooter typ := by
    refine ⟨htake1, ?_, ?_⟩
    · rw [hdrop1]
      simp only [List.length_append]
      omega
    · rw [hdrop1, hdrop2]
  rw [pemDecode, if_pos hcond, hdrop1, htake2]
  rw [filter_wrap64 _ (b64Encode_ne_10 body)]
  exact b64Decode_b64Encode body h

/-! ### x509 marshalling of RSA keys -/

/-- DER content bytes of OID 1.2.840.113549.1.1.1 (rsaEncryption). -/
def oidRsaEncryption : List Nat := [42, 134, 72, 134, 247, 13, 1, 1, 1]

/-- DER NULL. -/
def derNull : List Nat := [5, 0]

/-- AlgorithmIdentifier SEQUENCE { rsaEncryption, NULL }. -/
def algIdRsaEncryption : List Nat :=
  derTagged 48 (derTagged 6 oidRsaEncryption ++ derNull)

/-- `big.Int.ModInverse(a, m)`, modelled as the (unique, when it exists)
inverse below `m`; the marshalled `Qinv` is parsed but discarded —
`x509.ParsePKCS1PrivateKey` recomputes all CRT values with `Precompute`. -/
def modInv (a m : Nat) : Nat :=
  ((List.range m).find? (fun x => a * x % m == 1)).getD 0

theorem modInv_lt (a m : Nat) (hm : 0 < m) : modInv a m < m := by
  unfold modInv
  cases hf : (List.range m).find? (fun x => a * x % m == 1) with
  | none => simpa using hm
  | some x =>
    have hmem : x ∈ List.range m := List.mem_of_find?_eq_some hf
    simpa using List.mem_range.mp hmem

/-- `x509.marshalPKCS1PrivateKey`: SEQUENCE of version 0, n, e, d, p, q
and the CRT values `d mod (p-1)`, `d mod (q-1)`, `q⁻¹ mod p` that
`Precompute` fills in before marshalling. -/
def marshalPKCS1PrivateKey (k : RsaPrivateKey) : List Nat :=
  derTagged 48
    (derInt 0 ++ derInt k.n ++ derInt k.e ++ derInt k.d ++ derInt k.p ++
     derInt k.q ++ derInt (k.d % (k.p - 1)) ++ derInt (k.d % (k.q - 1)) ++
     derInt (modInv k.q k.p))

/-- `x509.MarshalPKCS8PrivateKey` for an RSA key: SEQUENCE of version 0,
the rsaEncryption AlgorithmIdentifier, and the PKCS#1 blob as an OCTET
STRING. -/
def marshalPKCS8PrivateKey (k : RsaPrivateKey) : List Nat :=
  derTagged 48
    (derInt 0 ++ algIdRsaEncryption ++ derTagged 4 (marshalPKCS1PrivateKey k))

/-- PKCS#1 RSAPublicKey: SEQUENCE { n, e }. -/
def marshalPKCS1PublicKey (k : RsaPublicKey) : List Nat :=
  derTagged 48 (derInt k.n ++ derInt k.e)

/-- `x509.MarshalPKIXPublicKey` for RSA: SEQUENCE of the
AlgorithmIdentifier and the PKCS#1 key in a BIT STRING (leading byte 0 =
no unused bits). -/
def marshalPKIXPublicKey (k : RsaPublicKey) : List Nat :=
  derTagged 48 (algIdRsaEncryption ++ derTagged 3 (0 :: marshalPKCS1PublicKey k))

/-- `crypto/rsa` `PrivateKey.Validate` plus `checkPub`, which
`x509.ParsePKCS1PrivateKey` runs on every parsed key: public exponent in
`[2, 2^31-1]`, primes above 1 multiplying to the modulus, and
`d·e ≡ 1 (mod p-1)` and `(mod q-1)`. -/
def rsaValidate (k : RsaPrivateKey) : Bool :=
  decide (2 ≤ k.e) && decide (k.e ≤ 2 ^ 31 - 1) && decide (1 < k.p) &&
    decide (1 < k.q) && (k.p * k.q == k.n) &&
    (k.d * k.e % (k.p - 1) == 1) && (k.d * k.e % (k.q - 1) == 1)

/-- `x509.ParsePKCS1PrivateKey`: outer SEQUENCE with no trailing data,
version at most 1, the nine INTEGER fields, positivity of n/d/p/q, then
`Precompute` + `Validate`.  The parsed CRT integers are discarded (Go
recomputes them), so the result carries `n,e,d,p,q`. -/
def parsePKCS1PrivateKey (bs : List Nat) : Option RsaPrivateKey :=
  match parseTagged 48 bs with
  | none => none
  | some (_, _ :: _) => none
  | some (content, []) =>
    match parseIntDER content with
    | none => none
    | some (ver, c1) =>
      if 1 < ver then none
      else match parseIntDER c1 with
      | none => none
      | some (n, c2) =>
        match parseIntDER c2 with
        | none => none
        | some (e, c3) =>
          match parseIntDER c3 with
          | none => none
          | some (d, c4) =>
            match parseIntDER c4 with
            | none => none
            | some (p, c5) =>
              match parseIntDER c5 with
              | none => none
              | some (q, c6) =>
                match parseIntDER c6 with
                | none => none
                | some (_dp, c7) =>
                  match parseIntDER c7 with
                  | none => none
                  | some (_dq, c8) =>
                    match parseIntDER c8 with
                    | none => none
                    | some (_qinv, c9) =>
                      if c9 ≠ [] then none
                      else if ¬ (0 < n ∧ 0 < d ∧ 0 < p ∧ 0 < q) then none
                      else if rsaValidate { n := n, e := e, d := d, p := p, q := q }
                      then some { n := n, e := e, d := d, p := p, q := q }
                      else none

/-- `x509.ParsePKCS8PrivateKey`: unwrap the PKCS#8 envelope, check the
rsaEncryption OID, and hand the OCTET STRING to the PKCS#1 parser. -/
def parsePKCS8PrivateKey (bs : List Nat) : Option RsaPrivateKey :=
  match parseTagged 48 bs with
  | none => none
  | some (_, _ :: _) => none
  | some (content, []) =>
    match parseIntDER content with
    | none => none
    | some (_ver, c1) =>
      match parseTagged 48 c1 with
      | none => none
      | some (algId, c2) =>
        match parseTagged 6 algId with
        | none => none
        | some (oid, _params) =>
          if oid ≠ oidRsaEncryption then none
          else match parseTagged 4 c2 with
          | none => none
          | some (pkcs1, c3) =>
            if c3 ≠ [] then none
            else parsePKCS1PrivateKey pkcs1

/-- `x509.ParsePKIXPublicKey` for RSA: unwrap the envelope, check the
OID, right-align the BIT STRING (unused-bits byte must be 0) and read
SEQUENCE { n, e }; n must be positive and e must be a positive value
fitting the platform int. -/
def parsePKIXPublicKey (bs : List Nat) : Option RsaPublicKey :=
  match parseTagged 48 bs with
  | none => none
  | some (_, _ :: _) => none
  | some (content, []) =>
    match parseTagged 48 content with
    | none => none
    | some (algId, c1) =>
      match parseTagged 6 algId with
      | none => none
      | some (oid, _params) =>
        if oid ≠ oidRsaEncryption then none
        else match parseTagged 3 c1 with
        | none => none
        | some (bits, c2) =>
          if c2 ≠ [] then none
          else match bits with
          | 0 :: inner =>
            (match parseTagged 48 inner with
             | none => none
             | some (_, _ :: _) => none
             | some (pk, []) =>
               match parseIntDER pk with
               | none => none
               | some (n, d1) =>
                 match parseIntDER d1 with
                 | none => none
                 | some (e, d2) =>
                   if d2 ≠ [] then none
                   else if 0 < n ∧ 0 < e ∧ e < 2 ^ 63 then
                     some { n := n, e := e }
                   else none)
          | _ => none

/-! ### The four PEM helpers of the SDK (unnamed helper file, lines 39-95) -/

/-- `exportRsaPrivateKeyAsPem`: PKCS#8 DER in a `PRIVATE KEY` PEM block. -/
def exportRsaPrivateKeyAsPem (k : RsaPrivateKey) : List Nat :=
  pemEncodeToMemory "PRIVATE KEY" (marshalPKCS8PrivateKey k)

/-- `parseRsaPrivateKeyFromPem` = `jwt.ParseRSAPrivateKeyFromPEM`:
pem-decode, try PKCS#1 first, fall back to PKCS#8. -/
def parseRsaPrivateKeyFromPem (bs : List Nat) : Option RsaPrivateKey :=
  match pemDecode "PRIVATE KEY" bs with
  | none => none
  | some der =>
    match parsePKCS1PrivateKey der with
    | some k => some k
    | none => parsePKCS8PrivateKey der

/-- `exportRsaPublicKeyAsPem`: PKIX DER in a `PUBLIC KEY` PEM block. -/
def exportRsaPublicKeyAsPem (k : RsaPublicKey) : List Nat :=
  pemEncodeToMemory "PUBLIC KEY" (marshalPKIXPublicKey k)

/-- `parseRsaPublicKeyFromPem`: pem-decode then `x509.ParsePKIXPublicKey`
with the RSA type switch. -/
def parseRsaPublicKeyFromPem (bs : List Nat) : Option RsaPublicKey :=
  match pemDecode "PUBLIC KEY" bs with
  | none => none
  | some der => parsePKIXPublicKey der

/-! ### Byte-boundedness and length facts for the marshalled forms -/

theorem mem_append_lt {l1 l2 : List Nat} (h1 : ∀ b ∈ l1, b < 256)
    (h2 : ∀ b ∈ l2, b < 256) : ∀ b ∈ l1 ++ l2, b < 256 := by
  intro b hb
  rcases List.mem_append.mp hb with hmem | hmem
  · exact h1 b hmem
  · exact h2 b hmem

theorem algIdRsaEncryption_lt : ∀ b ∈ algIdRsaEncryption, b < 256 := by
  decide

theorem marshalPKCS1PrivateKey_lt (k : RsaPrivateKey) :
    ∀ b ∈ marshalPKCS1PrivateKey k, b < 256 := by
  refine derTagged_lt 48 _ (by omega) ?_
  exact mem_append_lt (mem_append_lt (mem_append_lt (mem_append_lt
    (mem_append_lt (mem_append_lt (mem_append_lt (mem_append_lt
      (derInt_lt 0) (derInt_lt k.n)) (derInt_lt k.e)) (derInt_lt k.d))
      (derInt_lt k.p)) (derInt_lt k.q)) (derInt_lt (k.d % (k.p - 1))))
      (derInt_lt (k.d % (k.q - 1)))) (derInt_lt (modInv k.q k.p))

theorem marshalPKCS8PrivateKey_lt (k : RsaPrivateKey) :
    ∀ b ∈ marshalPKCS8PrivateKey k, b < 256 := by
  refine derTagged_lt 48 _ (by omega) ?_
  exact mem_append_lt (mem_append_lt (derInt_lt 0) algIdRsaEncryption_lt)
    (derTagged_lt 4 _ (by omega) (marshalPKCS1PrivateKey_lt k))

theorem marshalPKIXPublicKey_lt (k : RsaPublicKey) :
    ∀ b ∈ marshalPKIXPublicKey k, b < 256 := by
  refine derTagged_lt 48 _ (by omega) ?_
  refine mem_append_lt algIdRsaEncryption_lt ?_
  refine derTagged_lt 3 _ (by omega) ?_
  intro b hb
  rcases List.mem_cons.mp hb with h1 | h2
  · omega
  · exact derTagged_lt 48 _ (by omega)
      (mem_append_lt (derInt_lt k.n) (derInt_lt k.e)) b h2

/-- Any length realisable in a process satisfies `lenOK`; this covers
everything up to 2^24-1 bytes. -/
theorem lenOK_small (n : Nat) (h : n ≤ 16777215) : lenOK n := by
  apply lenOK_of_lt
  have h3 : (16777215 : Nat) < 256 ^ 3 := by norm_num
  have hle : (256 : Nat) ^ 3 ≤ 256 ^ 127 := Nat.pow_le_pow_right (by omega) (by omega)
  omega

/-- `lenOK` for the content of a DER INTEGER of any value below
`256 ^ 65000`. -/
theorem lenOK_derIntContent (n : Nat) (h : n < 256 ^ 65000) :
    lenOK (derIntContent n).length := by
  apply lenOK_of_lt
  have hc := derIntContent_length_le n 65000 h
  have h3 : (65002 : Nat) < 256 ^ 3 := by norm_num
  have hle : (256 : Nat) ^ 3 ≤ 256 ^ 127 :=
    Nat.pow_le_pow_right (by omega) (by omega)
  omega

/-! ### Round trip: parse ∘ marshal -/

theorem rsaValidate_fields (k : RsaPrivateKey) (hv : rsaValidate k = true) :
    2 ≤ k.e ∧ k.e ≤ 2 ^ 31 - 1 ∧ 1 < k.p ∧ 1 < k.q ∧ k.p * k.q = k.n ∧
      k.d * k.e % (k.p - 1) = 1 ∧ k.d * k.e % (k.q - 1) = 1 := by
  unfold rsaValidate at hv
  simp only [Bool.and_eq_true, decide_eq_true_eq, beq_iff_eq] at hv
  tauto

theorem rsaValidate_pos (k : RsaPrivateKey) (hv : rsaValidate k = true) :
    0 < k.n ∧ 0 < k.d ∧ 0 < k.p ∧ 0 < k.q := by
  obtain ⟨he2, heB, hp1, hq1, hpq, hdp, hdq⟩ := rsaValidate_fields k hv
  refine ⟨?_, ?_, by omega, by omega⟩
  · have h1 : 1 * 1 ≤ k.p * k.q := Nat.mul_le_mul (by omega) (by omega)
    omega
  · by_contra h0
    have hd0 : k.d = 0 := by omega
    simp [hd0] at hdp

theorem parsePKCS1_marshal (k : RsaPrivateKey) (hv : rsaValidate k = true)
    (hn : k.n < 256 ^ 10000) (hd : k.d < 256 ^ 10000) :
    parsePKCS1PrivateKey (marshalPKCS1PrivateKey k) = some k := by
  obtain ⟨he2, heB, hp1, hq1, hpq, hdp2, hdq2⟩ := rsaValidate_fields k hv
  obtain ⟨h0n, h0d, h0p, h0q⟩ := rsaValidate_pos k hv
  -- all size reasoning is done with monotonicity lemmas, keeping the
  -- powers symbolic
  have hmono : (256 : Nat) ^ 10000 ≤ 256 ^ 65000 :=
    Nat.pow_le_pow_right (by norm_num) (by norm_num)
  have hpn : k.p ≤ k.n := by
    have h1 := Nat.mul_le_mul_left k.p (show 1 ≤ k.q by omega)
    rw [Nat.mul_one] at h1
    omega
  have hqn : k.q ≤ k.n := by
    have h1 := Nat.mul_le_mul_right k.q (show 1 ≤ k.p by omega)
    rw [Nat.one_mul] at h1
    omega
  have h31 : (2 : Nat) ^ 31 - 1 < 256 ^ 65000 :=
    lt_of_lt_of_le (by norm_num : (2 : Nat) ^ 31 - 1 < 256 ^ 4)
      (Nat.pow_le_pow_right (by norm_num) (by norm_num))
  have hdpb : k.d % (k.p - 1) ≤ k.d := Nat.mod_le _ _
  have hdqb : k.d % (k.q - 1) ≤ k.d := Nat.mod_le _ _
  have hqinv : modInv k.q k.p < k.p := modInv_lt k.q k.p (by omega)
  have hnB : k.n < 256 ^ 65000 := lt_of_lt_of_le hn hmono
  have hdB : k.d < 256 ^ 65000 := lt_of_lt_of_le hd hmono
  have heBig : k.e < 256 ^ 65000 := lt_of_le_of_lt heB h31
  have hpB : k.p < 256 ^ 65000 := lt_of_le_of_lt hpn hnB
  have hqB : k.q < 256 ^ 65000 := lt_of_le_of_lt hqn hnB
  have hdpB : k.d % (k.p - 1) < 256 ^ 65000 := lt_of_le_of_lt hdpb hdB
  have hdqB : k.d % (k.q - 1) < 256 ^ 65000 := lt_of_le_of_lt hdqb hdB
  have hqiB : modInv k.q k.p < 256 ^ 65000 := lt_trans hqinv hpB
  have h0B : (0 : Nat) < 256 ^ 65000 := pow_pos (by norm_num) _
  have lOK0 : lenOK (derIntContent 0).length := lenOK_derIntContent 0 h0B
  have lOKn : lenOK (derIntContent k.n).length := lenOK_derIntContent _ hnB
  have lOKe : lenOK (derIntContent k.e).length := lenOK_derIntContent _ heBig
  have lOKd : lenOK (derIntContent k.d).length := lenOK_derIntContent _ hdB
  have lOKp : lenOK (derIntContent k.p).length := lenOK_derIntContent _ hpB
  have lOKq : lenOK (derIntContent k.q).length := lenOK_derIntContent _ hqB
  have lOKdp : lenOK (derIntContent (k.d % (k.p - 1))).length :=
    lenOK_derIntContent _ hdpB
  have lOKdq : lenOK (derIntContent (k.d % (k.q - 1))).length :=
    lenOK_derIntContent _ hdqB
  have lOKqi : lenOK (derIntContent (modInv k.q k.p)).length :=
    lenOK_derIntContent _ hqiB
  have L0 : (derInt 0).length ≤ 65006 :=
    derInt_length_le 0 65000 h0B (le_refl _)
  have Ln : (derInt k.n).length ≤ 65006 :=
    derInt_length_le _ 65000 hnB (le_refl _)
  have Le : (derInt k.e).length ≤ 65006 :=
    derInt_length_le _ 65000 heBig (le_refl _)
  have Ld : (derInt k.d).length ≤ 65006 :=
    derInt_length_le _ 65000 hdB (le_refl _)
  have Lp : (derInt k.p).length ≤ 65006 :=
    derInt_length_le _ 65000 hpB (le_refl _)
  have Lq : (derInt k.q).length ≤ 65006 :=
    derInt_length_le _ 65000 hqB (le_refl _)
  have Ldp : (derInt (k.d % (k.p - 1))).length ≤ 65006 :=
    derInt_length_le _ 65000 hdpB (le_refl _)
  have Ldq : (derInt (k.d % (k.q - 1))).length ≤ 65006 :=
    derInt_length_le _ 65000 hdqB (le_refl _)
  have Lqi : (derInt (modInv k.q k.p)).length ≤ 65006 :=
    derInt_length_le _ 65000 hqiB (le_refl _)
  clear hn hd hmono h31 hnB hdB heBig hpB hqB hdpB hdqB hqiB h0B
  have lOKseq : lenOK (derInt 0 ++ derInt k.n ++ derInt k.e ++ derInt k.d ++
      derInt k.p ++ derInt k.q ++ derInt (k.d % (k.p - 1)) ++
      derInt (k.d % (k.q - 1)) ++ derInt (modInv k.q k.p)).length := by
    apply lenOK_small
    simp only [List.length_append]
    omega
  have hv2 : rsaValidate { n := k.n, e := k.e, d := k.d, p := k.p, q := k.q }
      = true := hv
  unfold parsePKCS1PrivateKey marshalPKCS1PrivateKey
  rw [parseTagged_self 48 _ lOKseq]
  dsimp only
  simp only [List.append_assoc]
  rw [parseIntDER_spec 0 _ lOK0]
  dsimp only
  rw [if_neg (by omega)]
  rw [parseIntDER_spec k.n _ lOKn]
  dsimp only
  rw [parseIntDER_spec k.e _ lOKe]
  dsimp only
  rw [parseIntDER_spec k.d _ lOKd]
  dsimp only
  rw [parseIntDER_spec k.p _ lOKp]
  dsimp only
  rw [parseIntDER_spec k.q _ lOKq]
  dsimp only
  rw [parseIntDER_spec (k.d % (k.p - 1)) _ lOKdp]
  dsimp only
  rw [parseIntDER_spec (k.d % (k.q - 1)) _ lOKdq]
  dsimp only
  rw [parseIntDER_self (modInv k.q k.p) lOKqi]
  dsimp only
  rw [if_neg (by simp)]
  rw [if_neg (not_not_intro ⟨h0n, h0d, h0p, h0q⟩)]
  rw [if_pos hv2]

/-- A DER blob beginning with a SEQUENCE tag is not an INTEGER. -/
theorem parseIntDER_seq_none (x y : List Nat) :
    parseIntDER (derTagged 48 x ++ y) = none := by
  simp [parseIntDER, parseTagged, derTagged]

/-- The length bound used for the PKCS#8 envelope around a PKCS#1 blob. -/
theorem marshalPKCS1_length_le (k : RsaPrivateKey) (hv : rsaValidate k = true)
    (hn : k.n < 256 ^ 10000) (hd : k.d < 256 ^ 10000) :
    (marshalPKCS1PrivateKey k).length ≤ 600000 := by
  obtain ⟨he2, heB, hp1, hq1, hpq, hdp2, hdq2⟩ := rsaValidate_fields k hv
  have hmono : (256 : Nat) ^ 10000 ≤ 256 ^ 65000 :=
    Nat.pow_le_pow_right (by norm_num) (by norm_num)
  have hpn : k.p ≤ k.n := by
    have h1 := Nat.mul_le_mul_left k.p (show 1 ≤ k.q by omega)
    rw [Nat.mul_one] at h1
    omega
  have hqn : k.q ≤ k.n := by
    have h1 := Nat.mul_le_mul_right k.q (show 1 ≤ k.p by omega)
    rw [Nat.one_mul] at h1
    omega
  have h31 : (2 : Nat) ^ 31 - 1 < 256 ^ 65000 :=
    lt_of_lt_of_le (by norm_num : (2 : Nat) ^ 31 - 1 < 256 ^ 4)
      (Nat.pow_le_pow_right (by norm_num) (by norm_num))
  have hdpb : k.d % (k.p - 1) ≤ k.d := Nat.mod_le _ _
  have hdqb : k.d % (k.q - 1) ≤ k.d := Nat.mod_le _ _
  have hqinv : modInv k.q k.p < k.p := modInv_lt k.q k.p (by omega)
  have hnB : k.n < 256 ^ 65000 := lt_of_lt_of_le hn hmono
  have hdB : k.d < 256 ^ 65000 := lt_of_lt_of_le hd hmono
  have heBig : k.e < 256 ^ 65000 := lt_of_le_of_lt heB h31
  have hpB : k.p < 256 ^ 65000 := lt_of_le_of_lt hpn hnB
  have hqB : k.q < 256 ^ 65000 := lt_of_le_of_lt hqn hnB
  have hdpB : k.d % (k.p - 1) < 256 ^ 65000 := lt_of_le_of_lt hdpb hdB
  have hdqB : k.d % (k.q - 1) < 256 ^ 65000 := lt_of_le_of_lt hdqb hdB
  have hqiB : modInv k.q k.p < 256 ^ 65000 := lt_trans hqinv hpB
  have h0B : (0 : Nat) < 256 ^ 65000 := pow_pos (by norm_num) _
  have L0 : (derInt 0).length ≤ 65006 :=
    derInt_length_le 0 65000 h0B (le_refl _)
  have Ln : (derInt k.n).length ≤ 65006 :=
    derInt_length_le _ 65000 hnB (le_refl _)
  have Le : (derInt k.e).length ≤ 65006 :=
    derInt_length_le _ 65000 heBig (le_refl _)
  have Ld : (derInt k.d).length ≤ 65006 :=
    derInt_length_le _ 65000 hdB (le_refl _)
  have Lp : (derInt k.p).length ≤ 65006 :=
    derInt_length_le _ 65000 hpB (le_refl _)
  have Lq : (derInt k.q).length ≤ 65006 :=
    derInt_length_le _ 65000 hqB (le_refl _)
  have Ldp : (derInt (k.d % (k.p - 1))).length ≤ 65006 :=
    derInt_length_le _ 65000 hdpB (le_refl _)
  have Ldq : (derInt (k.d % (k.q - 1))).length ≤ 65006 :=
    derInt_length_le _ 65000 hdqB (le_refl _)
  have Lqi : (derInt (modInv k.q k.p)).length ≤ 65006 :=
    derInt_length_le _ 65000 hqiB (le_refl _)
  clear hn hd hmono h31 hnB hdB heBig hpB hqB hdpB hdqB hqiB h0B
  have hcl : (derInt 0 ++ derInt k.n ++ derInt k.e ++ derInt k.d ++
      derInt k.p ++ derInt k.q ++ derInt (k.d % (k.p - 1)) ++
      derInt (k.d % (k.q - 1)) ++ derInt (modInv k.q k.p)).length
      ≤ 585054 := by
    simp only [List.length_append]
    omega
  have hcl2 : (derInt 0 ++ derInt k.n ++ derInt k.e ++ derInt k.d ++
      derInt k.p ++ derInt k.q ++ derInt (k.d % (k.p - 1)) ++
      derInt (k.d % (k.q - 1)) ++ derInt (modInv k.q k.p)).length
      < 256 ^ 3 := by
    have h3 : (585054 : Nat) < 256 ^ 3 := by norm_num
    omega
  unfold marshalPKCS1PrivateKey
  have := derTagged_length_le 48 _ 3 hcl2
  omega

/-- `x509.ParsePKCS1PrivateKey` rejects a PKCS#8 blob: after the version
INTEGER it expects an INTEGER (the modulus) but finds the
AlgorithmIdentifier SEQUENCE. -/
theorem parsePKCS1_on_pkcs8 (k : RsaPrivateKey) (hv : rsaValidate k = true)
    (hn : k.n < 256 ^ 10000) (hd : k.d < 256 ^ 10000) :
    parsePKCS1PrivateKey (marshalPKCS8PrivateKey k) = none := by
  have lOK0 : lenOK (derIntContent 0).length :=
    lenOK_derIntContent 0 (pow_pos (by norm_num) _)
  have hpk1 := marshalPKCS1_length_le k hv hn hd
  have lOKouter : lenOK (derInt 0 ++ algIdRsaEncryption ++
      derTagged 4 (marshalPKCS1PrivateKey k)).length := by
    apply lenOK_small
    have h4 : (marshalPKCS1PrivateKey k).length < 256 ^ 3 := by
      have : (600000 : Nat) < 256 ^ 3 := by norm_num
      omega
    have := derTagged_length_le 4 _ 3 h4
    simp only [List.length_append]
    have hL0 : (derInt 0).length ≤ 65006 :=
      derInt_length_le 0 65000 (pow_pos (by norm_num) _) (le_refl _)
    have halg : algIdRsaEncryption.length = 15 := by decide
    omega
  unfold parsePKCS1PrivateKey marshalPKCS8PrivateKey
  rw [parseTagged_self 48 _ lOKouter]
  dsimp only
  simp only [List.append_assoc]
  rw [parseIntDER_spec 0 _ lOK0]
  dsimp only
  rw [if_neg (by omega)]
  unfold algIdRsaEncryption
  rw [parseIntDER_seq_none]

/-- `x509.ParsePKCS8PrivateKey` inverts `MarshalPKCS8PrivateKey`. -/
theorem parsePKCS8_marshal (k : RsaPrivateKey) (hv : rsaValidate k = true)
    (hn : k.n < 256 ^ 10000) (hd : k.d < 256 ^ 10000) :
    parsePKCS8PrivateKey (marshalPKCS8PrivateKey k) = some k := by
  have lOK0 : lenOK (derIntContent 0).length :=
    lenOK_derIntContent 0 (pow_pos (by norm_num) _)
  have hpk1 := marshalPKCS1_length_le k hv hn hd
  have lOKouter : lenOK (derInt 0 ++ algIdRsaEncryption ++
      derTagged 4 (marshalPKCS1PrivateKey k)).length := by
    apply lenOK_small
    have h4 : (marshalPKCS1PrivateKey k).length < 256 ^ 3 := by
      have : (600000 : Nat) < 256 ^ 3 := by norm_num
      omega
    have := derTagged_length_le 4 _ 3 h4
    simp only [List.length_append]
    have hL0 : (derInt 0).length ≤ 65006 :=
      derInt_length_le 0 65000 (pow_pos (by norm_num) _) (le_refl _)
    have halg : algIdRsaEncryption.length = 15 := by decide
    omega
  have lOKalg : lenOK (derTagged 6 oidRsaEncryption ++ derNull).length := by
    apply lenOK_small
    decide
  have lOKoid : lenOK oidRsaEncryption.length := by
    apply lenOK_small
    decide
  have lOKpk1 : lenOK (marshalPKCS1PrivateKey k).length := by
    apply lenOK_small
    omega
  unfold parsePKCS8PrivateKey marshalPKCS8PrivateKey
  rw [parseTagged_self 48 _ lOKouter]
  dsimp only
  simp only [List.append_assoc]
  rw [parseIntDER_spec 0 _ lOK0]
  dsimp only
  unfold algIdRsaEncryption
  rw [parseTagged_spec 48 _ _ lOKalg]
  dsimp only
  rw [parseTagged_spec 6 _ _ lOKoid]
  dsimp only
  rw [if_neg (by simp)]
  rw [parseTagged_self 4 _ lOKpk1]
  dsimp only
  rw [if_neg (by simp)]
  exact parsePKCS1_marshal k hv hn hd

/-- `x509.ParsePKIXPublicKey` inverts `MarshalPKIXPublicKey`. -/
theorem parsePKIX_marshal (pub : RsaPublicKey) (h0n : 0 < pub.n)
    (h0e : 0 < pub.e) (hnB : pub.n < 256 ^ 10000) (heB : pub.e < 2 ^ 63) :
    parsePKIXPublicKey (marshalPKIXPublicKey pub) = some pub := by
  have hmono : (256 : Nat) ^ 10000 ≤ 256 ^ 65000 :=
    Nat.pow_le_pow_right (by norm_num) (by norm_num)
  have h63 : (2 : Nat) ^ 63 < 256 ^ 65000 :=
    lt_of_lt_of_le (by norm_num : (2 : Nat) ^ 63 < 256 ^ 8)
      (Nat.pow_le_pow_right (by norm_num) (by norm_num))
  have hnBig : pub.n < 256 ^ 65000 := lt_of_lt_of_le hnB hmono
  have heBig : pub.e < 256 ^ 65000 := lt_trans heB h63
  have lOKn : lenOK (derIntContent pub.n).length :=
    lenOK_derIntContent _ hnBig
  have lOKe : lenOK (derIntContent pub.e).length :=
    lenOK_derIntContent _ heBig
  have Ln : (derInt pub.n).length ≤ 65006 :=
    derInt_length_le _ 65000 hnBig (le_refl _)
  have Le : (derInt pub.e).length ≤ 65006 :=
    derInt_length_le _ 65000 heBig (le_refl _)
  clear hmono h63 hnBig heBig hnB
  have lOKpk : lenOK (derInt pub.n ++ derInt pub.e).length := by
    apply lenOK_small
    simp only [List.length_append]
    omega
  have hpklen : (marshalPKCS1PublicKey pub).length ≤ 140000 := by
    have hc : (derInt pub.n ++ derInt pub.e).length < 256 ^ 3 := by
      have h3 : (130012 : Nat) < 256 ^ 3 := by norm_num
      simp only [List.length_append]
      omega
    have := derTagged_length_le 48 _ 3 hc
    unfold marshalPKCS1PublicKey
    simp only [List.length_append] at this ⊢
    omega
  have lOKbits : lenOK (0 :: marshalPKCS1PublicKey pub).length := by
    apply lenOK_small
    simp only [List.length_cons]
    omega
  have lOKalg : lenOK (derTagged 6 oidRsaEncryption ++ derNull).length := by
    apply lenOK_small
    decide
  have lOKoid : lenOK oidRsaEncryption.length := by
    apply lenOK_small
    decide
  have lOKouter : lenOK (algIdRsaEncryption ++
      derTagged 3 (0 :: marshalPKCS1PublicKey pub)).length := by
    apply lenOK_small
    have hbl : (0 :: marshalPKCS1PublicKey pub).length < 256 ^ 3 := by
      have h3 : (140001 : Nat) < 256 ^ 3 := by norm_num
      simp only [List.length_cons]
      omega
    have := derTagged_length_le 3 _ 3 hbl
    have halg : algIdRsaEncryption.length = 15 := by decide
    simp only [List.length_append, List.length_cons] at this ⊢
    omega
  unfold parsePKIXPublicKey marshalPKIXPublicKey
  rw [parseTagged_self 48 _ lOKouter]
  dsimp only
  unfold algIdRsaEncryption
  rw [parseTagged_spec 48 _ _ lOKalg]
  dsimp only
  rw [parseTagged_spec 6 _ _ lOKoid]
  dsimp only
  rw [if_neg (by simp)]
  rw [parseTagged_self 3 _ lOKbits]
  dsimp only
  rw [if_neg (by simp)]
  unfold marshalPKCS1PublicKey
  rw [parseTagged_self 48 _ lOKpk]
  dsimp only
  rw [parseIntDER_spec pub.n _ lOKn]
  dsimp only
  rw [parseIntDER_self pub.e lOKe]
  dsimp only
  rw [if_neg (by simp)]
  rw [if_pos ⟨h0n, h0e, heB⟩]

/-- C6: for every RSA key pair (a private key satisfying `rsa.Validate`,
with components of any size a real process can hold, and its public
half), exporting to PKCS#8 / PKIX PEM and parsing back succeeds and
reproduces the key exactly — in particular the modulus and the public
exponent equal the original's. -/
theorem rsa_pem_roundtrip (k : RsaPrivateKey) (pub : RsaPublicKey)
    (hv : rsaValidate k = true)
    (hn : k.n < 256 ^ 10000) (hd : k.d < 256 ^ 10000)
    (hpn : 0 < pub.n) (hpe : 0 < pub.e)
    (hpnB : pub.n < 256 ^ 10000) (hpeB : pub.e < 2 ^ 63) :
    parseRsaPrivateKeyFromPem (exportRsaPrivateKeyAsPem k) = some k ∧
    parseRsaPublicKeyFromPem (exportRsaPublicKeyAsPem pub) = some pub := by
  constructor
  · unfold parseRsaPrivateKeyFromPem exportRsaPrivateKeyAsPem
    rw [pemDecode_pemEncode _ _ (marshalPKCS8PrivateKey_lt k)]
    dsimp only
    rw [parsePKCS1_on_pkcs8 k hv hn hd]
    exact parsePKCS8_marshal k hv hn hd
  · unfold parseRsaPublicKeyFromPem exportRsaPublicKeyAsPem
    rw [pemDecode_pemEncode _ _ (marshalPKIXPublicKey_lt pub)]
    exact parsePKIX_marshal pub hpn hpe hpnB hpeB

/-- C6, witnessed on a concrete valid RSA key pair
(n = 55 = 5·11, e = 3, d = 7). -/
theorem rsa_pem_roundtrip_witness :
    parseRsaPrivateKeyFromPem (exportRsaPrivateKeyAsPem
        { n := 55, e := 3, d := 7, p := 5, q := 11 }) =
      some { n := 55, e := 3, d := 7, p := 5, q := 11 } ∧
    parseRsaPublicKeyFromPem (exportRsaPublicKeyAsPem { n := 55, e := 3 }) =
      some { n := 55, e := 3 } := by
  have hpow : (256 : Nat) ^ 1 ≤ 256 ^ 10000 :=
    Nat.pow_le_pow_right (by omega) (by omega)
  have h55 : (55 : Nat) < 256 ^ 10000 :=
    lt_of_lt_of_le (by norm_num : (55 : Nat) < 256 ^ 1) hpow
  have h7 : (7 : Nat) < 256 ^ 10000 :=
    lt_of_lt_of_le (by norm_num : (7 : Nat) < 256 ^ 1) hpow
  exact rsa_pem_roundtrip { n := 55, e := 3, d := 7, p := 5, q := 11 }
    { n := 55, e := 3 } (by decide) h55 h7 (by decide)
    (by decide) h55 (by norm_num)

end DatahubSDK
